import Mathlib

/-!
Shallow embedding of the yaml-fm-lint front-matter linter (the refactored
engine: `lintFile`, `lintLineByLine`, `extraLinters`, and the fix-mode
rewriter).  JavaScript strings are modelled as Lean `String`s, JS arrays as
`List`s, the mutable module-level counters (`errorNumber`, `warningNumber`,
`fixableErrors`, `process.exitCode`) as an explicit `RunState` threaded
through `lintFile`, and the external YAML primitives (`load` / `dump` from
js-yaml) as function parameters.  Console rendering calls (`showError`,
`showWarning`, `showOneline`) are recorded symbolically in a `shown` list.
-/

namespace YamlFmLint

/-- JS `\s` character class (the subset reachable in split lines). -/
def jsWsChar (c : Char) : Bool :=
  c = ' ' || c = '\t' || c = '\n' || c = '\r' || c = '\x0b' || c = '\x0c' || c = ' '

/-- JS `\w` character class: ASCII letters, digits and underscore. -/
def isWordChar (c : Char) : Bool :=
  c.isAlphanum || c = '_'

/-- The `[ \t]` character class of the one-space-after-colon rule. -/
def isSpaceTab (c : Char) : Bool :=
  c = ' ' || c = '\t'

/-- Line terminators that JS regex `.` does not match. -/
def isLineTermChar (c : Char) : Bool :=
  c = '\n' || c = '\r' || c = ' ' || c = ' '

/-- Length of the maximal whitespace run at the head of the char list. -/
def wsRun : List Char → Nat
  | [] => 0
  | c :: rest => if jsWsChar c then wsRun rest + 1 else 0

/-- Length of the maximal space/tab run at the head of the char list. -/
def stRun : List Char → Nat
  | [] => 0
  | c :: rest => if isSpaceTab c then stRun rest + 1 else 0

/-- JS `data.replace(/\r/g, "")`: delete every carriage return. -/
def stripCR (s : String) : String :=
  String.mk (s.data.filter (fun c => c ≠ '\r'))

/-- JS `String.prototype.split("\n")` on a list of characters: split at every
newline, keeping empty pieces (always returns at least one piece). -/
def splitNL : List Char → List (List Char)
  | [] => [[]]
  | c :: rest =>
    if c = '\n' then [] :: splitNL rest
    else
      match splitNL rest with
      | [] => [[c]]
      | h :: t => (c :: h) :: t

/-- `text.split("\n")` producing `String` lines. -/
def splitLines (s : String) : List String :=
  (splitNL s.data).map String.mk

/-- JS `Array.prototype.join("\n")`. -/
def joinNL : List String → String
  | [] => ""
  | [s] => s
  | s :: rest => s ++ "\n" ++ joinNL rest

/-- JS `String.prototype.trim` (whitespace from both ends). -/
def jsTrim (s : String) : String :=
  String.mk (((s.data.dropWhile jsWsChar).reverse.dropWhile jsWsChar).reverse)

/-- JS `String.prototype.startsWith`. -/
def strStarts (s pat : String) : Bool :=
  go pat.data s.data
where
  go : List Char → List Char → Bool
    | [], _ => true
    | _ :: _, [] => false
    | c :: cs, d :: ds => c = d && go cs ds

/-- JS `Array.prototype.indexOf(target, start)` over a string list. -/
def jsIndexOfFrom (l : List String) (target : String) (start : Nat) : Int :=
  go l 0
where
  go : List String → Nat → Int
    | [], _ => -1
    | x :: rest, i => if start ≤ i ∧ x = target then (i : Int) else go rest (i + 1)

/-- JS `line.search(/\S/g)`: index of the first non-whitespace char, else -1. -/
def searchNonWs (s : String) : Int :=
  go s.data 0
where
  go : List Char → Nat → Int
    | [], _ => -1
    | c :: rest, i => if jsWsChar c then go rest (i + 1) else (i : Nat)

/-- Length of the trailing whitespace run of the line (the `match[0].length`
of `/(\s+)$/`, or 0 when `line.search(/(\s+)$/g) === -1`). -/
def trailingWsLen (s : String) : Nat :=
  wsRun s.data.reverse

/-- JS `line.search(/,\s*$/g) !== -1`: the line ends with a comma optionally
followed by whitespace. -/
def endsWithCommaWs (s : String) : Bool :=
  (s.data.reverse.dropWhile jsWsChar).headD ' ' = ','

/-- Scan of `/['"]/g`, `/[\[\]]/g`, `/[\{\}]/g` loops with
`lastIndex = match.index + 1`: every index whose character is in the class. -/
def scanClass (isTarget : Char → Bool) : List Char → Nat → List Nat
  | [], _ => []
  | c :: rest, p =>
    if isTarget c then p :: scanClass isTarget rest (p + 1)
    else scanClass isTarget rest (p + 1)

/-- Scan of the `/,./g` loop with `lastIndex = match.index + 1`: indices of
commas that are immediately followed by a (non-line-terminator) character. -/
def scanComma : List Char → Nat → List Nat
  | [], _ => []
  | c :: rest, p =>
    if c = ',' && !(isLineTermChar (rest.headD '\n')) then p :: scanComma rest (p + 1)
    else scanComma rest (p + 1)

/-- Scan of the `/(\s+):/g` loop with `lastIndex = col - 1` (resume at the
colon).  The `skip` counter encodes the `lastIndex` jump: after a match at
index `p` with run length `s` the next position examined is the colon at
`p + s`, so the `s - 1` intermediate positions are skipped.  Entries are
`(match.index, match[1].length)` pairs: a whitespace run of length `s`
starting at index `p` with a colon directly after it. -/
def scanWsbcAux : List Char → Nat → Nat → List (Nat × Nat)
  | [], _, _ => []
  | _ :: rest, p, k + 1 => scanWsbcAux rest (p + 1) k
  | c :: rest, p, 0 =>
    if jsWsChar c then
      let s := wsRun rest + 1
      if rest.getD (s - 1) ' ' = ':' then
        (p, s) :: scanWsbcAux rest (p + 1) (s - 1)
      else scanWsbcAux rest (p + 1) 0
    else scanWsbcAux rest (p + 1) 0

/-- The whitespace-before-colon scan, started with no pending skip. -/
def scanWsbc (cs : List Char) (p : Nat) : List (Nat × Nat) :=
  scanWsbcAux cs p 0

/-- Scan of the `/\w(\s{2,})\w/g` loop with `lastIndex = match.index + 1`.
Returns `(match.index, match[1].length)`: a word char at `p`, a whitespace
run of length `r ≥ 2`, then another word char. -/
def scanRepeating : List Char → Nat → List (Nat × Nat)
  | [], _ => []
  | c :: rest, p =>
    let tail := scanRepeating rest (p + 1)
    if isWordChar c then
      let r := wsRun rest
      if 2 ≤ r ∧ isWordChar (rest.getD r ' ') then (p, r) :: tail
      else tail
    else tail

/-- Scan of the `/:([ \t]{2,})\S/g` loop with `lastIndex = match.index + 1`.
Returns `(match.index, match[1].length)`: a colon at `p`, a space/tab run of
length `r ≥ 2`, then a non-whitespace char. -/
def scanColonSpaces : List Char → Nat → List (Nat × Nat)
  | [], _ => []
  | c :: rest, p =>
    let tail := scanColonSpaces rest (p + 1)
    if c = ':' then
      let r := stRun rest
      if 2 ≤ r ∧ jsWsChar (rest.getD r ' ') = false then (p, r) :: tail
      else tail
    else tail

/-- JS regex test `/^"?\w+"?\s*:/` (attribute line detection).  Because the
character classes `"`, `\w`, `\s`, `:` are pairwise disjoint, the greedy
backtracking regex is equivalent to this deterministic maximal-munch match. -/
def isAttrLine (line : String) : Bool :=
  let cs := line.data
  let cs := match cs with
    | '"' :: rest => rest
    | other => other
  match cs.span isWordChar with
  | ([], _) => false
  | (_ :: _, rest) =>
    let rest := match rest with
      | '"' :: r => r
      | other => other
    (rest.dropWhile jsWsChar).headD 'x' = ':'

/-- Number of decimal digits of `n` as rendered by `toString`. -/
def digitCount (n : Nat) : Nat :=
  (toString n).length

/-- `"----^".padStart(target, "-")`. -/
def padStartDash (target : Nat) : String :=
  if target ≤ 5 then "----^"
  else String.mk (List.replicate (target - 5) '-') ++ "----^"

/-- `getSnippet(lines, col, row)` for an in-range row (`row ≥ 1`):
`Math.floor(Math.log10(row))` is the digit count of `row` minus one, and a
JS out-of-bounds array read renders as the string `"undefined"`. -/
def getSnippet (lines : List String) (col : Nat) (row : Nat) : String :=
  toString (row - 1) ++ " | " ++ lines.getD (row - 1) "undefined" ++ "\n" ++
  toString row ++ " | " ++ lines.getD row "undefined" ++ "\n" ++
  padStartDash (col + 3 + (digitCount row - 1)) ++ "\n" ++
  toString (row + 1) ++ " | " ++ lines.getD (row + 1) "undefined" ++ "\n"

/-- A positioned violation as pushed by the rule loops (`colStart`/`colEnd`
are only present for the span-reporting rules). -/
structure Violation where
  row : Nat
  col : Nat
  colStart : Option Nat
  colEnd : Option Nat
  snippet : String
deriving DecidableEq, Repr

/-- The `basicErrors` object of `lintLineByLine`: one list per fixed message
key, in declaration order.  `missingRequired` holds the required attribute
names not yet seen; `emptyLines` holds bare row numbers (the source pushes
`i`, not an object, for that rule). -/
structure BasicErrors where
  missingRequired : List String
  wsBeforeColon : List Violation
  emptyLines : List Nat
  quotes : List Violation
  trailingSpaces : List Violation
  brackets : List Violation
  curlyBraces : List Violation
  indentation : List Violation
  trailingCommas : List Violation
deriving DecidableEq, Repr

/-- The `basicWarnings` object: both whitespace warning rules push into the
`"possibly unintended whitespace"` list. -/
structure BasicWarnings where
  unintendedWhitespace : List Violation
  unintendedCommas : List Violation
deriving DecidableEq, Repr

/-- The CLI arguments consulted by the engine. -/
structure Args where
  fix : Bool
  quiet : Bool
deriving DecidableEq, Repr

/-- An affected-location descriptor passed by an extra-rule plugin to the
`showOneline` callback (each field may be absent, i.e. `undefined`). -/
structure Affected where
  row : Option Int
  col : Option Int
  snippet : Option String
deriving DecidableEq, Repr

/-- One invocation of the plugin reporting callback
`showOneline(type, message, affected)`. -/
structure OnelineCall where
  type : String
  message : String
  affected : Option Affected
deriving DecidableEq, Repr

/-- Observable behaviour of one extra-rule plugin: the sequence of
`showOneline` calls it makes plus the `{errors, warnings}` counts it
returns. -/
structure PluginResult where
  calls : List OnelineCall
  errors : Nat
  warnings : Nat
deriving DecidableEq, Repr

/-- The configuration fields read by the engine; `α` is the type of parsed
YAML attribute mappings (the js-yaml `load` result). -/
structure Config (α : Type) where
  requiredAttributes : List String
  mandatory : Bool
  extraLintFns : Option (List (α → List String → PluginResult))

/-- Payload of a recorded console-rendering call. -/
inductive ShowPayload where
  | strings (vals : List String)
  | rows (vals : List Nat)
  | viols (vals : List Violation)
  | single (row col : Option Int) (snippet : String)
  | message (text : String)
deriving DecidableEq, Repr

/-- The fourth argument the host passes to the external `showOneline`. -/
inductive OnelinePayload where
  | noAffected
  | affectedList (a : Affected)
  | rowOnly (r : Int)
  | snippetOnly (s : String)
deriving DecidableEq, Repr

/-- A recorded call to one of the external display collaborators. -/
inductive ShowCall where
  | error (message filePath : String) (payload : ShowPayload) (oneline : Bool)
  | warning (message filePath : String) (payload : ShowPayload)
  | oneline (type message filePath : String) (payload : OnelinePayload)
deriving DecidableEq, Repr

/-- Loop state of the `lintLineByLine` for-loop. -/
structure LineAcc where
  errors : BasicErrors
  warnings : BasicWarnings
  fileErrors : Nat
  fileWarnings : Nat
  fixable : Nat
deriving DecidableEq, Repr

/-- Violation of the whitespace-before-colon rule from a scan match at index
`p` with run length `s` (`col = match.index + match[0].search(/:/) + 1`). -/
def mkWsbcViolation (fm : List String) (i p s : Nat) : Violation :=
  let wsbcLength := s + 1
  let col := p + s + 1
  { row := i, col := col, colStart := some (col - wsbcLength), colEnd := some (col - 1),
    snippet := getSnippet fm col i }

/-- Violation for the single-character rules (quotes, brackets, curly braces,
comma warnings): `col = match.index + 2`. -/
def mkCharViolation (fm : List String) (i idx : Nat) : Violation :=
  let col := idx + 2
  { row := i, col := col, colStart := none, colEnd := none, snippet := getSnippet fm col i }

/-- Violation of the no-trailing-spaces rule:
`spaceCount = match[0].length + 1`, `col = line.length + 1`. -/
def mkTrailingSpacesViolation (fm : List String) (i : Nat) (line : String) : Violation :=
  let spaceCount := trailingWsLen line + 1
  let col := line.length + 1
  { row := i, col := col, colStart := some (col - spaceCount), colEnd := some col,
    snippet := getSnippet fm col i }

/-- Violation for the two whitespace-run warning rules from a match at index
`p` with run length `r` (`spaceCount = match[1].length + 1`,
`col = match.index + r + 2`). -/
def mkRunViolation (fm : List String) (i p r : Nat) : Violation :=
  let spaceCount := r + 1
  let col := p + r + 2
  { row := i, col := col, colStart := some (col - spaceCount), colEnd := some (col - 1),
    snippet := getSnippet fm col i }

/-- Violation of the indentation-jump rule (`col = indentationCurr + 1`). -/
def mkIndentViolation (fm : List String) (i curr : Nat) : Violation :=
  let col := curr + 1
  { row := i, col := col, colStart := some 0, colEnd := some (col - 1),
    snippet := getSnippet fm col i }

/-- Violation of the no-trailing-commas rule (`col = line.length + 1`). -/
def mkTrailingCommaViolation (fm : List String) (i : Nat) (line : String) : Violation :=
  let col := line.length + 1
  { row := i, col := col, colStart := none, colEnd := none, snippet := getSnippet fm col i }

/-- JS `line.split(":")[0]`: the prefix of the line before its first colon
(the whole line when it has none). -/
def beforeColon (s : String) : String :=
  String.mk (s.data.takeWhile (fun c => c ≠ ':'))

/-- Contributions of the whitespace-before-colon rule for one line. -/
def wsbcContrib (fix : Bool) (fm : List String) (i : Nat) (line : String) : List Violation :=
  if fix then [] else (scanWsbc line.data 0).map (fun m => mkWsbcViolation fm i m.1 m.2)

/-- Contributions of the no-quotes rule for one line. -/
def quotesContrib (fix : Bool) (fm : List String) (i : Nat) (line : String) : List Violation :=
  if fix then []
  else (scanClass (fun c => c = '\'' || c = '"') line.data 0).map (mkCharViolation fm i)

/-- Contribution of the no-trailing-spaces rule for one line. -/
def trailingSpacesContrib (fix : Bool) (fm : List String) (i : Nat) (line : String) :
    List Violation :=
  if fix then []
  else if 1 ≤ trailingWsLen line then [mkTrailingSpacesViolation fm i line] else []

/-- Contributions of the no-brackets rule for one line. -/
def bracketsContrib (fix : Bool) (fm : List String) (i : Nat) (line : String) : List Violation :=
  if fix then []
  else (scanClass (fun c => c = '[' || c = ']') line.data 0).map (mkCharViolation fm i)

/-- Contributions of the no-curly-braces rule for one line. -/
def curlyContrib (fix : Bool) (fm : List String) (i : Nat) (line : String) : List Violation :=
  if fix then []
  else (scanClass (fun c => c = '{' || c = '}') line.data 0).map (mkCharViolation fm i)

/-- Contribution of the indentation-jump rule for one line: the previous
line is `fm[i - 1]` taken verbatim, with `-1` (all-whitespace) coerced
to indentation 0. -/
def indentContrib (fix : Bool) (fm : List String) (i : Nat) (line : String) : List Violation :=
  if fix then []
  else
    let indentationCurr := searchNonWs line
    if 0 < indentationCurr then
      let prevRaw := searchNonWs (fm.getD (i - 1) "undefined")
      let indentationPrev : Int := if prevRaw = -1 then 0 else prevRaw
      if 2 < indentationCurr - indentationPrev then
        [mkIndentViolation fm i indentationCurr.toNat]
      else []
    else []

/-- Contributions of the repeating-whitespace warning rule for one line
(never guarded by fix mode). -/
def repeatingContrib (fm : List String) (i : Nat) (line : String) : List Violation :=
  (scanRepeating line.data 0).map (fun m => mkRunViolation fm i m.1 m.2)

/-- Contributions of the extra-space-after-colon warning rule for one line
(guarded by fix mode in the source). -/
def colonSpacesContrib (fix : Bool) (fm : List String) (i : Nat) (line : String) :
    List Violation :=
  if fix then [] else (scanColonSpaces line.data 0).map (fun m => mkRunViolation fm i m.1 m.2)

/-- Contribution of the no-trailing-commas rule for one line. -/
def trailingCommaContrib (fix : Bool) (fm : List String) (i : Nat) (line : String) :
    List Violation :=
  if fix then []
  else if endsWithCommaWs line then [mkTrailingCommaViolation fm i line] else []

/-- Contributions of the comma warning rule for one line
(never guarded by fix mode). -/
def commaWarnContrib (fm : List String) (i : Nat) (line : String) : List Violation :=
  (scanComma line.data 0).map (mkCharViolation fm i)

/-- One iteration of the `lintLineByLine` loop body, in source order:
attribute tracking, then the empty-line check (whose `continue` skips every
later rule), then the remaining rules. -/
def lintOneLine (args : Args) (fm : List String) (i : Nat) (acc : LineAcc) : LineAcc :=
  let line := fm.getD i "undefined"
  let acc :=
    if isAttrLine line then
      { acc with errors := { acc.errors with
          missingRequired := acc.errors.missingRequired.erase (jsTrim (beforeColon line)) } }
    else acc
  if args.fix = false ∧ jsTrim line = "" then
    { acc with
      errors := { acc.errors with emptyLines := acc.errors.emptyLines ++ [i] },
      fileErrors := acc.fileErrors + 1, fixable := acc.fixable + 1 }
  else
    let c1 := wsbcContrib args.fix fm i line
    let c2 := quotesContrib args.fix fm i line
    let c3 := trailingSpacesContrib args.fix fm i line
    let c4 := bracketsContrib args.fix fm i line
    let c5 := curlyContrib args.fix fm i line
    let c6 := indentContrib args.fix fm i line
    let c7 := repeatingContrib fm i line
    let c8 := colonSpacesContrib args.fix fm i line
    let c9 := trailingCommaContrib args.fix fm i line
    let c10 := commaWarnContrib fm i line
    { acc with
      errors := { acc.errors with
        wsBeforeColon := acc.errors.wsBeforeColon ++ c1,
        quotes := acc.errors.quotes ++ c2,
        trailingSpaces := acc.errors.trailingSpaces ++ c3,
        brackets := acc.errors.brackets ++ c4,
        curlyBraces := acc.errors.curlyBraces ++ c5,
        indentation := acc.errors.indentation ++ c6,
        trailingCommas := acc.errors.trailingCommas ++ c9 },
      warnings := { acc.warnings with
        unintendedWhitespace := acc.warnings.unintendedWhitespace ++ c7 ++ c8,
        unintendedCommas := acc.warnings.unintendedCommas ++ c10 },
      fileErrors := acc.fileErrors + c1.length + c2.length + c3.length + c4.length +
        c5.length + c6.length + c9.length,
      fileWarnings := acc.fileWarnings + c7.length + c8.length + c10.length,
      fixable := acc.fixable + c1.length + c2.length + c3.length + c4.length +
        c5.length + c6.length + c9.length }

/-- The for-loop `for (let i = 1; i < fm.length - 1; i++)`. -/
def lintLines (args : Args) (fm : List String) (init : LineAcc) : LineAcc :=
  (List.range' 1 (fm.length - 1 - 1)).foldl (fun acc i => lintOneLine args fm i acc) init

/-- Initial loop state: `missing required attribute` starts as a copy of
`config.requiredAttributes`; every other list is empty. -/
def initLineAcc (requiredAttributes : List String) : LineAcc :=
  { errors := {
      missingRequired := requiredAttributes, wsBeforeColon := [], emptyLines := [],
      quotes := [], trailingSpaces := [], brackets := [], curlyBraces := [],
      indentation := [], trailingCommas := [] },
    warnings := { unintendedWhitespace := [], unintendedCommas := [] },
    fileErrors := 0, fileWarnings := 0, fixable := 0 }

/-- The non-quiet display block at the end of `lintLineByLine`: one
`showError` / `showWarning` per non-empty list, in object-key order. -/
def lintShown (quiet : Bool) (fp : String) (e : BasicErrors) (w : BasicWarnings) :
    List ShowCall :=
  if quiet then [] else
    (if 0 < e.missingRequired.length then
      [.error "missing required attribute" fp (.strings e.missingRequired) true] else []) ++
    (if 0 < e.wsBeforeColon.length then
      [.error "there must be no whitespace before colons" fp (.viols e.wsBeforeColon) false]
     else []) ++
    (if 0 < e.emptyLines.length then
      [.error "there must be no empty lines" fp (.rows e.emptyLines) true] else []) ++
    (if 0 < e.quotes.length then
      [.error "there must be no quotes in the front matter" fp (.viols e.quotes) false]
     else []) ++
    (if 0 < e.trailingSpaces.length then
      [.error "there must be no trailing spaces" fp (.viols e.trailingSpaces) false] else []) ++
    (if 0 < e.brackets.length then
      [.error "there must be no brackets" fp (.viols e.brackets) false] else []) ++
    (if 0 < e.curlyBraces.length then
      [.error "there must be no curly braces" fp (.viols e.curlyBraces) false] else []) ++
    (if 0 < e.indentation.length then
      [.error "lines cannot be indented more than 2 spaces from the previous line" fp
        (.viols e.indentation) false] else []) ++
    (if 0 < e.trailingCommas.length then
      [.error "there must be no trailing commas" fp (.viols e.trailingCommas) false] else []) ++
    (if 0 < w.unintendedWhitespace.length then
      [.warning "possibly unintended whitespace" fp (.viols w.unintendedWhitespace)] else []) ++
    (if 0 < w.unintendedCommas.length then
      [.warning "possibly unintended commas" fp (.viols w.unintendedCommas)] else [])

/-- Result of `lintLineByLine`. -/
structure LintLBL where
  filePath : String
  fileErrors : Nat
  fileWarnings : Nat
  errors : BasicErrors
  warnings : BasicWarnings
  fixable : Nat
  shown : List ShowCall
deriving DecidableEq, Repr

/-- `lintLineByLine(fm, filePath)`: runs the line loop, then adds the
still-missing required attributes to the error count, then renders. -/
def lintLineByLine {α : Type} (args : Args) (config : Config α) (fm : List String)
    (filePath : String) : LintLBL :=
  let acc := lintLines args fm (initLineAcc config.requiredAttributes)
  { filePath := filePath,
    fileErrors := acc.fileErrors + acc.errors.missingRequired.length,
    fileWarnings := acc.fileWarnings,
    errors := acc.errors, warnings := acc.warnings, fixable := acc.fixable,
    shown := lintShown args.quiet filePath acc.errors acc.warnings }

/-- JS truthiness of an optional number (`undefined` and `0` are falsy). -/
def truthyNum (o : Option Int) : Bool :=
  match o with
  | none => false
  | some n => n != 0

/-- JS truthiness of an optional string (`undefined` and `""` are falsy). -/
def truthyStr (o : Option String) : Bool :=
  match o with
  | none => false
  | some s => s != ""

/-- The early-return guard of the plugin callback:
`if (affected && !affected.row && !affected.snippet) return;`. -/
def droppedCall (call : OnelineCall) : Bool :=
  match call.affected with
  | some a => !truthyNum a.row && !truthyStr a.snippet
  | none => false

/-- `logAffected`: `!affected ? undefined : affected.col ? [affected] :
affected.row ? affected.row : affected.snippet`. -/
def mkLogAffected (o : Option Affected) : OnelinePayload :=
  match o with
  | none => .noAffected
  | some a =>
    if truthyNum a.col then .affectedList a
    else if truthyNum a.row then .rowOnly (a.row.getD 0)
    else .snippetOnly (a.snippet.getD "")

/-- `extensionAffected = affected?.row ? affected : { row: 0, col: 3 }`. -/
def extensionAffectedOf (o : Option Affected) : Affected :=
  match o with
  | some a => if truthyNum a.row then a else { row := some 0, col := some 3, snippet := none }
  | none => { row := some 0, col := some 3, snippet := none }

/-- JS object update `{ ...m, [k]: [...(m[k] ?? []), v] }`: append `v` to the
list at key `k`, keeping existing key order, adding a new key at the end. -/
def addEntry (m : List (String × List Affected)) (k : String) (v : Affected) :
    List (String × List Affected) :=
  match m with
  | [] => [(k, [v])]
  | (k2, vs) :: rest =>
    if k2 = k then (k2, vs ++ [v]) :: rest else (k2, vs) :: addEntry rest k v

/-- Accumulated effect of the plugin callback invocations. -/
structure ExtraAcc where
  extraErrors : List (String × List Affected)
  extraWarnings : List (String × List Affected)
  shown : List ShowCall
deriving DecidableEq, Repr

/-- One invocation of the `showOneline` callback closure in `extraLinters`:
drop silently if the location has neither row nor snippet, otherwise forward
to the display collaborator and fold into the error/warning maps. -/
def processOnelineCall (filePath : String) (acc : ExtraAcc) (call : OnelineCall) : ExtraAcc :=
  if droppedCall call then acc
  else
    let shownCall := ShowCall.oneline call.type call.message filePath (mkLogAffected call.affected)
    let ext := extensionAffectedOf call.affected
    if call.type = "Error" then
      { acc with
        extraErrors := addEntry acc.extraErrors call.message ext,
        shown := acc.shown ++ [shownCall] }
    else
      { acc with
        extraWarnings := addEntry acc.extraWarnings call.message ext,
        shown := acc.shown ++ [shownCall] }

/-- Result of `extraLinters`. -/
structure ExtraResult where
  extraErrors : List (String × List Affected)
  extraWarnings : List (String × List Affected)
  fileErrors : Nat
  fileWarnings : Nat
  shown : List ShowCall
deriving DecidableEq, Repr

/-- `extraLinters(attributes, fmLines, filePath)`: run each configured
plugin, folding its callback invocations and adding its returned counts. -/
def extraLinters {α : Type} (config : Config α) (attributes : α) (fmLines : List String)
    (filePath : String) : ExtraResult :=
  match config.extraLintFns with
  | none => {
      extraErrors := [], extraWarnings := [], fileErrors := 0, fileWarnings := 0,
      shown := [] }
  | some fns =>
    fns.foldl
      (fun st linter =>
        let res := linter attributes fmLines
        let acc := res.calls.foldl (processOnelineCall filePath)
          {
            extraErrors := st.extraErrors, extraWarnings := st.extraWarnings,
            shown := st.shown }
        {
          extraErrors := acc.extraErrors, extraWarnings := acc.extraWarnings,
          fileErrors := st.fileErrors + res.errors,
          fileWarnings := st.fileWarnings + res.warnings,
          shown := acc.shown })
      {
        extraErrors := [], extraWarnings := [], fileErrors := 0, fileWarnings := 0,
        shown := [] }

/-- Position mark of a js-yaml parse error (0-based line/column). -/
structure YamlMark where
  line : Int
  column : Int
deriving DecidableEq, Repr

/-- A js-yaml parse error: a reason and an optional mark. -/
structure YamlError where
  reason : String
  mark : Option YamlMark
deriving DecidableEq, Repr

/-- JS `lines[i]` for a possibly out-of-range or negative index. -/
def jsGetLine (lines : List String) (i : Int) : String :=
  if 0 ≤ i then lines.getD i.toNat "undefined" else "undefined"

/-- `getSnippet` as invoked from the parse-error handler, where `row`/`col`
may be `undefined`; with both absent the JS arithmetic produces `NaN`
indices, `"undefined"` line reads and an unpadded marker. -/
def getSnippetErr (lines : List String) (col row : Option Int) : String :=
  match col, row with
  | some c, some r =>
    toString (r - 1) ++ " | " ++ jsGetLine lines (r - 1) ++ "\n" ++
    toString r ++ " | " ++ jsGetLine lines r ++ "\n" ++
    padStartDash (c + 3 + (if 1 ≤ r then (digitCount r.toNat : Int) - 1 else 0)).toNat ++ "\n" ++
    toString (r + 1) ++ " | " ++ jsGetLine lines (r + 1) ++ "\n"
  | _, _ => "NaN | undefined\nNaN | undefined\n----^\nNaN | undefined\n"

/-- The `errors` field of a resolved `lintFile` outcome: `{noFrontMatter:
true}`, `{customError: {...}}`, or the spread of the basic rule map and the
plugin map. -/
inductive FileErrors where
  | noFrontMatter
  | customError (message : String) (row col : Option Int)
  | rules (basic : BasicErrors) (extra : List (String × List Affected))
deriving DecidableEq, Repr

/-- The `warnings` field of a resolved `lintFile` outcome. -/
inductive FileWarnings where
  | empty
  | rules (basic : BasicWarnings) (extra : List (String × List Affected))
deriving DecidableEq, Repr

/-- The object passed to `resolve` by `lintFile`. -/
structure Resolved where
  filePath : String
  fileErrors : Nat
  fileWarnings : Nat
  errors : FileErrors
  warnings : FileWarnings
deriving DecidableEq, Repr

/-- The module-level mutable state: `errorNumber`, `warningNumber`,
`fixableErrors` and `process.exitCode`. -/
structure RunState where
  errorNumber : Nat
  warningNumber : Nat
  fixableErrors : Nat
  exitCode : Option Nat
deriving DecidableEq, Repr

/-- Full observable effect of one `lintFile` call: the resolved outcome, the
updated module state, the file content written by fix mode (if any), and the
recorded display calls. -/
structure LintFileOut where
  resolved : Resolved
  state : RunState
  written : Option String
  shown : List ShowCall
deriving DecidableEq, Repr

/-- `line.replace(/\s*,$/g, "")`: when the line ends with a comma, drop that
comma and the maximal whitespace run directly before it. -/
def stripTrailingComma (line : String) : String :=
  match line.data.reverse with
  | ',' :: rest => String.mk ((rest.dropWhile jsWsChar).reverse)
  | _ => line

/-- Fix-mode front-matter construction: split the serializer output on
newlines, strip trailing-comma artifacts, `unshift("", "---")`, then
overwrite the last element with `"---"`. -/
def mkFixedFm (dumpStr : String) : List String :=
  let fixedFm := (splitLines dumpStr).map stripTrailingComma
  let fixedFm := "" :: "---" :: fixedFm
  fixedFm.dropLast ++ ["---"]

/-- `lines` as built by `lintFile`: strip carriage returns, split on
newlines, and `unshift("")` so indexing is 1-based. -/
def linesOf (text : String) : List String :=
  "" :: splitLines (stripCR text)

/-- The front-matter-absence test of `lintFile`:
`!lines[1].startsWith("---") || fmClosingTagIndex === -1`. -/
def fmNotFound (lines : List String) : Bool :=
  !(strStarts (lines.getD 1 "undefined") "---") || (jsIndexOfFrom lines "---" 2 == -1)

/-- `lintFile(filePath, text, args, config)` with the js-yaml primitives
`load`/`dump` passed as parameters and the module state threaded
explicitly. -/
def lintFile {α : Type} (load : String → Except YamlError α) (dump : α → String)
    (args : Args) (config : Config α) (filePath : String) (text : String)
    (st : RunState) : LintFileOut :=
  let lines := linesOf text
  let fmClosingTagIndex := jsIndexOfFrom lines "---" 2
  if fmNotFound lines then
    let shown : List ShowCall := if args.quiet then [] else
      [if config.mandatory then
        ShowCall.error "front matter not found" filePath
          (.message "Make sure front matter is at the beginning of the file.") true
      else
        ShowCall.warning "front matter not found" filePath
          (.message "Make sure front matter is at the beginning of the file.")]
    let st := if config.mandatory then
        { st with errorNumber := st.errorNumber + 1, exitCode := some 1 }
      else { st with warningNumber := st.warningNumber + 1 }
    { resolved := {
        filePath := filePath, fileErrors := st.errorNumber,
        fileWarnings := st.warningNumber, errors := .noFrontMatter, warnings := .empty },
      state := st, written := none, shown := shown }
  else
    let fmLines := lines.take (fmClosingTagIndex.toNat + 1)
    match load (joinNL (fmLines.filter (fun l => l != "---"))) with
    | Except.ok attributes =>
      let fixPair :=
        if args.fix then
          let fixedFm := mkFixedFm (dump attributes)
          let content := joinNL (lines.drop (fmClosingTagIndex.toNat + 1))
          (fixedFm, some (joinNL (fixedFm.drop 1) ++ "\n" ++ content))
        else (fmLines, none)
      let fmLines := fixPair.1
      let basic := lintLineByLine args config fmLines filePath
      let extra := extraLinters config attributes fmLines filePath
      let st := { st with
        errorNumber := st.errorNumber + basic.fileErrors + extra.fileErrors,
        warningNumber := st.warningNumber + basic.fileWarnings + extra.fileWarnings,
        fixableErrors := st.fixableErrors + basic.fixable }
      { resolved := {
          filePath := filePath, fileErrors := st.errorNumber,
          fileWarnings := st.warningNumber,
          errors := .rules basic.errors extra.extraErrors,
          warnings := .rules basic.warnings extra.extraWarnings },
        state := st, written := fixPair.2, shown := basic.shown ++ extra.shown }
    | Except.error e =>
      let row := e.mark.map (fun mk => mk.line + 1)
      let col := e.mark.map (fun mk => mk.column + 1)
      let st := { st with errorNumber := st.errorNumber + 1 }
      let shown : List ShowCall := if args.quiet then [] else
        [ShowCall.error e.reason filePath (.single row col (getSnippetErr fmLines col row)) false]
      { resolved := {
          filePath := filePath, fileErrors := st.errorNumber,
          fileWarnings := st.warningNumber,
          errors := .customError e.reason row col, warnings := .empty },
        state := st, written := none, shown := shown }

/-! ## Shared concrete fixtures -/

/-- The initial module state (all counters start at 0). -/
def zeroRunState : RunState :=
  { errorNumber := 0, warningNumber := 0, fixableErrors := 0, exitCode := none }

/-- Arguments: non-fix, quiet. -/
def argsNF : Args := { fix := false, quiet := true }

/-- Arguments: fix mode, quiet. -/
def argsFX : Args := { fix := true, quiet := true }

/-- A minimal configuration with no required attributes and no plugins. -/
def cfgU : Config Unit :=
  { requiredAttributes := [], mandatory := true, extraLintFns := none }

/-- A `load` stand-in that always parses successfully. -/
def loadOkU : String → Except YamlError Unit := fun _ => Except.ok ()

/-- A `load` stand-in that always fails with a positioned mark. -/
def loadBadU : String → Except YamlError Unit := fun _ =>
  Except.error { reason := "bad indentation", mark := some { line := 1, column := 3 } }

/-- A `dump` stand-in producing a fixed canonical block body. -/
def dumpUnit : Unit → String := fun _ => "a: 1\n"

/-! ## Claim C6: plugin-reported issues lacking both row and snippet -/

/-- A plugin that reports one error whose affected location carries only a
column: neither a (truthy) row nor a snippet. -/
def c6Plugin : Unit → List String → PluginResult := fun _ _ =>
  { calls := [{
      type := "Error", message := "custom check failed",
      affected := some { row := none, col := some 5, snippet := none } }],
    errors := 1, warnings := 0 }

/-- Configuration registering `c6Plugin` as an extra lint function. -/
def c6Config : Config Unit :=
  { requiredAttributes := [], mandatory := true, extraLintFns := some [c6Plugin] }

/-- C6 (counterexample): a plugin reports an error whose affected location
has a column but neither a (truthy) row nor a snippet.  The claim says it is
recorded as a file-level issue with default row 0; the code's early return
(`if (affected && !affected.row && !affected.snippet) return;`) instead drops
it entirely: the error map stays empty and nothing is displayed. -/
theorem c6_dropped_location_counterexample :
    (extraLinters c6Config () ["", "---", "a: b", "---"] "f.md").extraErrors = [] ∧
    (extraLinters c6Config () ["", "---", "a: b", "---"] "f.md").shown = [] := by
  exact ⟨rfl, rfl⟩

/-- C6 (amended): a plugin issue whose affected-location descriptor lacks
both a truthy row and a truthy snippet is silently discarded by the
`showOneline` callback: it is neither recorded in the error/warning maps nor
forwarded to the display collaborator.  (Only an issue with no descriptor at
all, or one with a snippet but no row, gets the default `{row: 0, col: 3}`
location.) -/
theorem c6_dropped_location_not_recorded (filePath t m : String) (acc : ExtraAcc)
    (a : Affected) (hrow : truthyNum a.row = false) (hsnip : truthyStr a.snippet = false) :
    processOnelineCall filePath acc { type := t, message := m, affected := some a } = acc := by
  simp [processOnelineCall, droppedCall, hrow, hsnip]

/-- C6 witness: the amended theorem applied at a concrete dropped call. -/
theorem c6_dropped_location_not_recorded_witness :
    truthyNum (Affected.mk none (some 5) none).row = false ∧
    truthyStr (Affected.mk none (some 5) none).snippet = false ∧
    processOnelineCall "f.md" ⟨[], [], []⟩
      { type := "Error", message := "custom check failed",
        affected := some (Affected.mk none (some 5) none) } = ⟨[], [], []⟩ :=
  ⟨by decide, by decide,
    c6_dropped_location_not_recorded "f.md" "Error" "custom check failed" ⟨[], [], []⟩
      (Affected.mk none (some 5) none) (by decide) (by decide)⟩

/-! ## Claim C2: which rules run in fix mode -/

/-- Reference definition for the amended claim: the line processing that
remains active in fix mode — attribute tracking for
`missing-required-attribute`, the repeating-whitespace scan, and the
comma-followed-by-char scan.  Everything else (including the
extra-space-after-colon scan) is absent. -/
def lintOneLineFixActive (fm : List String) (i : Nat) (acc : LineAcc) : LineAcc :=
  let line := fm.getD i "undefined"
  let acc :=
    if isAttrLine line then
      { acc with errors := { acc.errors with
          missingRequired := acc.errors.missingRequired.erase (jsTrim (beforeColon line)) } }
    else acc
  let c7 := repeatingContrib fm i line
  let c10 := commaWarnContrib fm i line
  { acc with
    warnings := { acc.warnings with
      unintendedWhitespace := acc.warnings.unintendedWhitespace ++ c7,
      unintendedCommas := acc.warnings.unintendedCommas ++ c10 },
    fileWarnings := acc.fileWarnings + c7.length + c10.length }

/-- C2 (counterexample): in fix mode, a line with three spaces directly
after a colon records no `possibly unintended whitespace` warning at all
(the extra-space-after-colon scan is guarded by `!args.fix`), while the same
line in non-fix mode records exactly one warning.  The claim states the
warning is still recorded in fix mode. -/
theorem c2_fix_skips_colon_space_counterexample :
    (lintLineByLine (Args.mk true true) cfgU ["", "---", "key:   value", "---"] "f.md").fileWarnings = 0 ∧
    (lintLineByLine (Args.mk true true) cfgU ["", "---", "key:   value", "---"] "f.md").warnings.unintendedWhitespace = [] ∧
    (lintLineByLine (Args.mk false true) cfgU ["", "---", "key:   value", "---"] "f.md").fileWarnings = 1 := by
  refine ⟨by decide, by decide, by decide⟩

/-- C2 (amended): when fix mode is active, `lintLineByLine` processes each
line with only the missing-required-attribute tracking, the
repeating-whitespace scan, and the comma-followed-by-char scan; every other
rule — including extra-space-after-colon — is skipped. -/
theorem c2_fix_mode_rules (args : Args) (hfix : args.fix = true) (fm : List String)
    (i : Nat) (acc : LineAcc) :
    lintOneLine args fm i acc = lintOneLineFixActive fm i acc := by
  obtain ⟨e, w, fe, fw, fx⟩ := acc
  obtain ⟨e1, e2, e3, e4, e5, e6, e7, e8, e9⟩ := e
  obtain ⟨w1, w2⟩ := w
  simp [lintOneLine, lintOneLineFixActive, hfix, wsbcContrib, quotesContrib,
    trailingSpacesContrib, bracketsContrib, curlyContrib, indentContrib,
    colonSpacesContrib, trailingCommaContrib]

/-- C2 witness: the amended theorem applied at the colon-space line. -/
theorem c2_fix_mode_rules_witness :
    (Args.mk true true).fix = true ∧
    lintOneLine (Args.mk true true) ["", "---", "key:   value", "---"] 2 (initLineAcc []) =
      lintOneLineFixActive ["", "---", "key:   value", "---"] 2 (initLineAcc []) :=
  ⟨rfl, c2_fix_mode_rules (Args.mk true true) rfl ["", "---", "key:   value", "---"] 2
    (initLineAcc [])⟩

/-! ## Claim C4: the resolved per-file counts -/

/-- C4 (counterexample): linting the violation-free file `---\na: b\n---\nx`
resolves `fileErrors = 0` when the run counters start at zero, but
`fileErrors = 5` when five errors were accumulated by earlier files — the
resolved field reports the module-level cumulative total, not a count
created fresh for the file. -/
theorem c4_fresh_outcome_counterexample :
    (lintFile loadOkU dumpUnit argsNF cfgU "f.md" "---\na: b\n---\nx"
      { errorNumber := 5, warningNumber := 7, fixableErrors := 0, exitCode := none
        }).resolved.fileErrors = 5 ∧
    (lintFile loadOkU dumpUnit argsNF cfgU "f.md" "---\na: b\n---\nx"
      zeroRunState).resolved.fileErrors = 0 := by
  refine ⟨by decide, by decide⟩

/-- C4 (amended): the `fileErrors` / `fileWarnings` fields resolved by
`lintFile` are the run-wide cumulative totals after this file: the incoming
`errorNumber` / `warningNumber` plus this file's own contribution (the value
resolved when the counters start from zero).  They equal the per-file counts
only when no errors or warnings were accumulated earlier in the run. -/
theorem c4_outcome_totals_cumulative {α : Type} (load : String → Except YamlError α)
    (dump : α → String) (args : Args) (config : Config α) (filePath text : String)
    (st : RunState) :
    (lintFile load dump args config filePath text st).resolved.fileErrors
      = st.errorNumber
        + (lintFile load dump args config filePath text zeroRunState).resolved.fileErrors
    ∧ (lintFile load dump args config filePath text st).resolved.fileWarnings
      = st.warningNumber
        + (lintFile load dump args config filePath text zeroRunState).resolved.fileWarnings := by
  by_cases h : fmNotFound (linesOf text) = true
  · by_cases hm : config.mandatory <;>
      simp [lintFile, h, hm, zeroRunState]
  · cases hload : load (joinNL (((linesOf text).take
        ((jsIndexOfFrom (linesOf text) "---" 2).toNat + 1)).filter (fun l => l != "---"))) with
    | ok a =>
      constructor <;> simp [lintFile, h, hload, zeroRunState, Nat.add_assoc]
    | error e =>
      constructor <;> simp [lintFile, h, hload, zeroRunState]

/-! ## Claim C10: the quiet flag only affects display -/

/-- The loop body reads only `args.fix`, so toggling `quiet` leaves it
unchanged. -/
theorem lintOneLine_quiet (f q q2 : Bool) :
    lintOneLine (Args.mk f q) = lintOneLine (Args.mk f q2) := rfl

/-- C10: running `lintFile` with the quiet flag set and unset produces the
same resolved outcome (`fileErrors`, `fileWarnings`, error and warning
maps), the same module state, and the same written file content; only the
recorded display calls can differ. -/
theorem c10_quiet_only_affects_display {α : Type} (load : String → Except YamlError α)
    (dump : α → String) (fix : Bool) (config : Config α) (filePath text : String)
    (st : RunState) :
    (lintFile load dump (Args.mk fix true) config filePath text st).resolved
      = (lintFile load dump (Args.mk fix false) config filePath text st).resolved
    ∧ (lintFile load dump (Args.mk fix true) config filePath text st).state
      = (lintFile load dump (Args.mk fix false) config filePath text st).state
    ∧ (lintFile load dump (Args.mk fix true) config filePath text st).written
      = (lintFile load dump (Args.mk fix false) config filePath text st).written := by
  by_cases h : fmNotFound (linesOf text) = true
  · refine ⟨?_, ?_, ?_⟩ <;> simp [lintFile, h]
  · cases hload : load (joinNL (((linesOf text).take
        ((jsIndexOfFrom (linesOf text) "---" 2).toNat + 1)).filter (fun l => l != "---"))) with
    | ok a =>
      refine ⟨?_, ?_, ?_⟩ <;>
        simp [lintFile, h, hload, lintLineByLine, lintLines, lintOneLine_quiet fix true false]
    | error e =>
      refine ⟨?_, ?_, ?_⟩ <;> simp [lintFile, h, hload]

/-! ## Claim C8: parse failures -/

/-- C8: when the YAML parser rejects the block body, `lintFile` adds exactly
one error to the run total, leaves the warning total unchanged, resolves a
single positioned `customError` carrying the parser's 1-based mark (absent
when the parser supplied none), resolves empty warnings, performs no
style-rule scanning (no rule map appears in the outcome), and writes
nothing. -/
theorem c8_parse_failure_single_error {α : Type} (load : String → Except YamlError α)
    (dump : α → String) (args : Args) (config : Config α) (filePath text : String)
    (st : RunState) (e : YamlError)
    (hfm : fmNotFound (linesOf text) = false)
    (hload : load (joinNL (((linesOf text).take
        ((jsIndexOfFrom (linesOf text) "---" 2).toNat + 1)).filter (fun l => l != "---")))
      = Except.error e) :
    (lintFile load dump args config filePath text st).state.errorNumber = st.errorNumber + 1
    ∧ (lintFile load dump args config filePath text st).state.warningNumber = st.warningNumber
    ∧ (lintFile load dump args config filePath text st).resolved.fileErrors = st.errorNumber + 1
    ∧ (lintFile load dump args config filePath text st).resolved.fileWarnings = st.warningNumber
    ∧ (lintFile load dump args config filePath text st).resolved.errors
        = FileErrors.customError e.reason (e.mark.map (fun mk => mk.line + 1))
            (e.mark.map (fun mk => mk.column + 1))
    ∧ (lintFile load dump args config filePath text st).resolved.warnings = FileWarnings.empty
    ∧ (lintFile load dump args config filePath text st).written = none := by
  refine ⟨?_, ?_, ?_, ?_, ?_, ?_, ?_⟩ <;> simp [lintFile, hfm, hload]

/-- C8 witness: the theorem applied to a concrete malformed file, where the
parser mark (0-based line 1, column 3) resolves as row 2, col 4. -/
theorem c8_parse_failure_single_error_witness :
    fmNotFound (linesOf "---\na: b\n---\nx") = false
    ∧ (lintFile loadBadU dumpUnit argsNF cfgU "f.md" "---\na: b\n---\nx"
        zeroRunState).state.errorNumber = 0 + 1
    ∧ (lintFile loadBadU dumpUnit argsNF cfgU "f.md" "---\na: b\n---\nx"
        zeroRunState).resolved.errors
        = FileErrors.customError "bad indentation" (some 2) (some 4)
    ∧ (lintFile loadBadU dumpUnit argsNF cfgU "f.md" "---\na: b\n---\nx"
        zeroRunState).written = none := by
  have h := c8_parse_failure_single_error loadBadU dumpUnit argsNF cfgU "f.md"
    "---\na: b\n---\nx" zeroRunState
    { reason := "bad indentation", mark := some { line := 1, column := 3 } }
    (by decide) rfl
  exact ⟨by decide, h.1, h.2.2.2.2.1, h.2.2.2.2.2.2⟩

/-! ## Per-row decomposition of the line loop (used by C3, C5, C7) -/

/-- What row `i` contributes to the no-trailing-spaces list, including the
empty-line `continue`. -/
def trailingLineContrib (args : Args) (fm : List String) (i : Nat) : List Violation :=
  let line := fm.getD i "undefined"
  if args.fix = false ∧ jsTrim line = "" then [] else trailingSpacesContrib args.fix fm i line

/-- What row `i` contributes to the indentation-jump list, including the
empty-line `continue`. -/
def indentLineContrib (args : Args) (fm : List String) (i : Nat) : List Violation :=
  let line := fm.getD i "undefined"
  if args.fix = false ∧ jsTrim line = "" then [] else indentContrib args.fix fm i line

/-- What row `i` contributes to the comma-warning list, including the
empty-line `continue`. -/
def commaLineContrib (args : Args) (fm : List String) (i : Nat) : List Violation :=
  let line := fm.getD i "undefined"
  if args.fix = false ∧ jsTrim line = "" then [] else commaWarnContrib fm i line

theorem lintOneLine_trailingSpaces (args : Args) (fm : List String) (i : Nat) (acc : LineAcc) :
    (lintOneLine args fm i acc).errors.trailingSpaces
      = acc.errors.trailingSpaces ++ trailingLineContrib args fm i := by
  simp only [lintOneLine, trailingLineContrib]
  generalize fm.getD i "undefined" = line
  by_cases hattr : isAttrLine line <;>
    by_cases hempty : args.fix = false ∧ jsTrim line = "" <;>
      simp [hattr, hempty]

theorem lintOneLine_indentation (args : Args) (fm : List String) (i : Nat) (acc : LineAcc) :
    (lintOneLine args fm i acc).errors.indentation
      = acc.errors.indentation ++ indentLineContrib args fm i := by
  simp only [lintOneLine, indentLineContrib]
  generalize fm.getD i "undefined" = line
  by_cases hattr : isAttrLine line <;>
    by_cases hempty : args.fix = false ∧ jsTrim line = "" <;>
      simp [hattr, hempty]

theorem lintOneLine_unintendedCommas (args : Args) (fm : List String) (i : Nat) (acc : LineAcc) :
    (lintOneLine args fm i acc).warnings.unintendedCommas
      = acc.warnings.unintendedCommas ++ commaLineContrib args fm i := by
  simp only [lintOneLine, commaLineContrib]
  generalize fm.getD i "undefined" = line
  by_cases hattr : isAttrLine line <;>
    by_cases hempty : args.fix = false ∧ jsTrim line = "" <;>
      simp [hattr, hempty]

theorem foldl_lintOneLine_trailingSpaces (args : Args) (fm : List String) (l : List Nat) :
    ∀ acc : LineAcc,
      ((l.foldl (fun a i => lintOneLine args fm i a) acc).errors.trailingSpaces)
        = acc.errors.trailingSpaces ++ l.flatMap (trailingLineContrib args fm) := by
  induction l with
  | nil => intro acc; simp
  | cons x xs ih =>
    intro acc
    simp only [List.foldl_cons, List.flatMap_cons, ih, lintOneLine_trailingSpaces,
      List.append_assoc]

theorem foldl_lintOneLine_indentation (args : Args) (fm : List String) (l : List Nat) :
    ∀ acc : LineAcc,
      ((l.foldl (fun a i => lintOneLine args fm i a) acc).errors.indentation)
        = acc.errors.indentation ++ l.flatMap (indentLineContrib args fm) := by
  induction l with
  | nil => intro acc; simp
  | cons x xs ih =>
    intro acc
    simp only [List.foldl_cons, List.flatMap_cons, ih, lintOneLine_indentation,
      List.append_assoc]

theorem foldl_lintOneLine_unintendedCommas (args : Args) (fm : List String) (l : List Nat) :
    ∀ acc : LineAcc,
      ((l.foldl (fun a i => lintOneLine args fm i a) acc).warnings.unintendedCommas)
        = acc.warnings.unintendedCommas ++ l.flatMap (commaLineContrib args fm) := by
  induction l with
  | nil => intro acc; simp
  | cons x xs ih =>
    intro acc
    simp only [List.foldl_cons, List.flatMap_cons, ih, lintOneLine_unintendedCommas,
      List.append_assoc]

theorem trailingLineContrib_row (args : Args) (fm : List String) (i : Nat) :
    ∀ v ∈ trailingLineContrib args fm i, v.row = i := by
  intro v hv
  simp only [trailingLineContrib, trailingSpacesContrib, mkTrailingSpacesViolation] at hv
  split at hv
  · simp at hv
  · split at hv
    · simp at hv
    · split at hv
      · simp at hv; rw [hv]
      · simp at hv

theorem indentLineContrib_row (args : Args) (fm : List String) (i : Nat) :
    ∀ v ∈ indentLineContrib args fm i, v.row = i := by
  intro v hv
  simp only [indentLineContrib, indentContrib, mkIndentViolation] at hv
  repeat' split at hv
  all_goals simp_all

theorem commaLineContrib_row (args : Args) (fm : List String) (i : Nat) :
    ∀ v ∈ commaLineContrib args fm i, v.row = i := by
  intro v hv
  simp only [commaLineContrib, commaWarnContrib, mkCharViolation] at hv
  split at hv
  · simp at hv
  · simp only [List.mem_map] at hv
    obtain ⟨idx, _, rfl⟩ := hv
    rfl

theorem filterRow_flatMap (contrib : Nat → List Violation) (l : List Nat) (j : Nat)
    (hrow : ∀ i ∈ l, ∀ v ∈ contrib i, v.row = i) (hnd : l.Nodup) (hj : j ∈ l) :
    (l.flatMap contrib).filter (fun v => v.row == j) = contrib j := by
  induction l with
  | nil => cases hj
  | cons x xs ih =>
    simp only [List.flatMap_cons, List.filter_append]
    have hx_rows := hrow x (List.mem_cons_self x xs)
    have hnd2 := List.nodup_cons.mp hnd
    rcases List.mem_cons.mp hj with hx | hxs
    · subst hx
      have h1 : (contrib j).filter (fun v => v.row == j) = contrib j := by
        apply List.filter_eq_self.mpr
        intro v hv
        simp [hx_rows v hv]
      have h2 : (xs.flatMap contrib).filter (fun v => v.row == j) = [] := by
        apply List.filter_eq_nil_iff.mpr
        intro v hv
        simp only [List.mem_flatMap] at hv
        obtain ⟨i, hi, hvi⟩ := hv
        have : v.row = i := hrow i (List.mem_cons_of_mem _ hi) v hvi
        have : i ≠ j := by rintro rfl; exact hnd2.1 hi
        simp_all
      rw [h1, h2, List.append_nil]
    · have hxj : x ≠ j := by rintro rfl; exact hnd2.1 hxs
      have h1 : (contrib x).filter (fun v => v.row == j) = [] := by
        apply List.filter_eq_nil_iff.mpr
        intro v hv
        have := hx_rows v hv
        simp_all
      rw [h1, List.nil_append]
      exact ih (fun i hi => hrow i (List.mem_cons_of_mem _ hi)) hnd2.2 hxs

theorem lintLineByLine_trailing_filter (args : Args) {α : Type} (config : Config α)
    (fm : List String) (fp : String) (j : Nat) (hj1 : 1 ≤ j) (hj2 : j < fm.length - 1) :
    ((lintLineByLine args config fm fp).errors.trailingSpaces).filter (fun v => v.row == j)
      = trailingLineContrib args fm j := by
  show (((List.range' 1 (fm.length - 1 - 1)).foldl (fun a i => lintOneLine args fm i a)
      (initLineAcc config.requiredAttributes)).errors.trailingSpaces).filter
      (fun v => v.row == j) = trailingLineContrib args fm j
  rw [foldl_lintOneLine_trailingSpaces]
  simp only [initLineAcc, List.nil_append]
  exact filterRow_flatMap _ _ _ (fun i _ => trailingLineContrib_row args fm i)
    (List.nodup_range' _ _) (by rw [List.mem_range'_1]; omega)

theorem lintLineByLine_indent_filter (args : Args) {α : Type} (config : Config α)
    (fm : List String) (fp : String) (j : Nat) (hj1 : 1 ≤ j) (hj2 : j < fm.length - 1) :
    ((lintLineByLine args config fm fp).errors.indentation).filter (fun v => v.row == j)
      = indentLineContrib args fm j := by
  show (((List.range' 1 (fm.length - 1 - 1)).foldl (fun a i => lintOneLine args fm i a)
      (initLineAcc config.requiredAttributes)).errors.indentation).filter
      (fun v => v.row == j) = indentLineContrib args fm j
  rw [foldl_lintOneLine_indentation]
  simp only [initLineAcc, List.nil_append]
  exact filterRow_flatMap _ _ _ (fun i _ => indentLineContrib_row args fm i)
    (List.nodup_range' _ _) (by rw [List.mem_range'_1]; omega)

theorem lintLineByLine_comma_filter (args : Args) {α : Type} (config : Config α)
    (fm : List String) (fp : String) (j : Nat) (hj1 : 1 ≤ j) (hj2 : j < fm.length - 1) :
    ((lintLineByLine args config fm fp).warnings.unintendedCommas).filter (fun v => v.row == j)
      = commaLineContrib args fm j := by
  show (((List.range' 1 (fm.length - 1 - 1)).foldl (fun a i => lintOneLine args fm i a)
      (initLineAcc config.requiredAttributes)).warnings.unintendedCommas).filter
      (fun v => v.row == j) = commaLineContrib args fm j
  rw [foldl_lintOneLine_unintendedCommas]
  simp only [initLineAcc, List.nil_append]
  exact filterRow_flatMap _ _ _ (fun i _ => commaLineContrib_row args fm i)
    (List.nodup_range' _ _) (by rw [List.mem_range'_1]; omega)

/-! ## Claim C3: the no-trailing-spaces span -/

/-- C3 (counterexample): on the line `"a: b "` (length 5, one trailing
space, so N = 1) the recorded violation has `colEnd = 6` but
`colStart = some 4`, not `colEnd - N = 5` as the claim states: the code
computes `colStart = col - (match[0].length + 1) = colEnd - N - 1`. -/
theorem c3_trailing_colstart_counterexample :
    ((lintLineByLine argsNF cfgU ["", "---", "a: b ", "---"] "f.md").errors.trailingSpaces).map
      (fun v => (v.row, v.col, v.colStart, v.colEnd)) = [(2, 6, some 4, some 6)]
    ∧ (some 4 : Option Nat) ≠ some (6 - 1) :=
  ⟨by decide, by decide⟩

/-- C3 (amended): for every non-blank body line with a trailing whitespace
run of length N ≥ 1 (non-fix mode), exactly one no-trailing-spaces violation
is recorded for that row, with `col = colEnd = line length + 1` and
`colStart = colEnd - N - 1` (that is, `line length - N`), not
`colEnd - N`.  (A whitespace-only line instead hits the empty-line
`continue` and records no trailing-space violation.) -/
theorem c3_trailing_spaces_span (args : Args) {α : Type} (config : Config α)
    (fm : List String) (fp : String) (i N : Nat)
    (hfix : args.fix = false) (h1 : 1 ≤ i) (h2 : i < fm.length - 1)
    (hblank : ¬ jsTrim (fm.getD i "undefined") = "")
    (hN : trailingWsLen (fm.getD i "undefined") = N) (hN1 : 1 ≤ N) :
    ((lintLineByLine args config fm fp).errors.trailingSpaces).filter (fun v => v.row == i)
      = [{ row := i, col := (fm.getD i "undefined").length + 1,
           colStart := some ((fm.getD i "undefined").length - N),
           colEnd := some ((fm.getD i "undefined").length + 1),
           snippet := getSnippet fm ((fm.getD i "undefined").length + 1) i }] := by
  rw [lintLineByLine_trailing_filter args config fm fp i h1 h2]
  simp only [trailingLineContrib, trailingSpacesContrib]
  revert hblank hN
  generalize fm.getD i "undefined" = line
  intro hblank hN
  rw [hfix]
  simp [hblank, hN, hN1, mkTrailingSpacesViolation, Nat.add_sub_add_right]

/-- C3 witness: the amended theorem at the line `"a: b "` (row 2, N = 1). -/
theorem c3_trailing_spaces_span_witness :
    argsNF.fix = false ∧ 1 ≤ 2
    ∧ 2 < (["", "---", "a: b ", "---"] : List String).length - 1
    ∧ ¬ jsTrim ((["", "---", "a: b ", "---"] : List String).getD 2 "undefined") = ""
    ∧ trailingWsLen ((["", "---", "a: b ", "---"] : List String).getD 2 "undefined") = 1
    ∧ ((lintLineByLine argsNF cfgU ["", "---", "a: b ", "---"] "f.md").errors.trailingSpaces).filter
        (fun v => v.row == 2)
      = [{ row := 2, col := 6, colStart := some 4, colEnd := some 6,
           snippet := getSnippet ["", "---", "a: b ", "---"] 6 2 }] :=
  ⟨rfl, by decide, by decide, by decide, by decide,
    c3_trailing_spaces_span argsNF cfgU ["", "---", "a: b ", "---"] "f.md" 2 1
      rfl (by decide) (by decide) (by decide) (by decide) (by decide)⟩

/-! ## Claim C5: the indentation-jump rule -/

/-- A string with empty JS `trim` consists only of whitespace characters. -/
theorem jsTrim_empty_all_ws {s : String} (h : jsTrim s = "") : ∀ c ∈ s.data, jsWsChar c := by
  have hdata : (((s.data.dropWhile jsWsChar).reverse.dropWhile jsWsChar).reverse) = [] := by
    have := congrArg String.data h
    simpa [jsTrim] using this
  have hA : ∀ c ∈ s.data.dropWhile jsWsChar, jsWsChar c := by
    intro c hc
    have h2 : (s.data.dropWhile jsWsChar).reverse.dropWhile jsWsChar = [] := by
      simpa using congrArg List.reverse hdata
    have := List.dropWhile_eq_nil_iff.mp h2
    exact this c (List.mem_reverse.mpr hc)
  intro c hc
  rw [← List.takeWhile_append_dropWhile (p := jsWsChar) (l := s.data)] at hc
  rcases List.mem_append.mp hc with h1 | h1
  · exact List.mem_takeWhile_imp h1
  · exact hA c h1

/-- Helper: the search loop over an all-whitespace list yields -1 from any
start index. -/
theorem searchNonWs_go_all (cs : List Char) (h : ∀ c ∈ cs, jsWsChar c) :
    ∀ i, searchNonWs.go cs i = -1 := by
  induction cs with
  | nil => intro i; rfl
  | cons c rest ih =>
    intro i
    simp only [searchNonWs.go]
    rw [if_pos (h c (List.mem_cons_self c rest))]
    exact ih (fun d hd => h d (List.mem_cons_of_mem c hd)) (i + 1)

/-- On an all-whitespace string, `line.search(/\S/g)` is -1. -/
theorem searchNonWs_all_ws {s : String} (h : ∀ c ∈ s.data, jsWsChar c) :
    searchNonWs s = -1 :=
  searchNonWs_go_all s.data h 0

/-- C5 (counterexample): body lines `"  x"`, `""`, `"   y"`.  The previous
non-blank line of `"   y"` is `"  x"` with leading-whitespace column 2, so
the claim's excess is 1 and no violation should be recorded; the code
instead compares with the immediately preceding blank line (coerced to
column 0), computes excess 3 > 2, and records one violation at row 4. -/
theorem c5_indentation_blank_prev_counterexample :
    ((lintLineByLine argsNF cfgU ["", "---", "  x", "", "   y", "---"]
        "f.md").errors.indentation).map (fun v => (v.row, v.col)) = [(4, 4)]
    ∧ searchNonWs "  x" = 2 ∧ searchNonWs "   y" = 3 :=
  ⟨by decide, by decide, by decide⟩

/-- C5 (amended): in non-fix mode, a body line with positive leading
whitespace records an indentation-jump violation iff its leading-whitespace
column exceeds that of the **immediately preceding** line by more than 2,
where a preceding line with no non-whitespace character (blank or
whitespace-only) counts as column 0 — not the previous non-blank line. -/
theorem c5_indentation_jump_rule (args : Args) {α : Type} (config : Config α)
    (fm : List String) (fp : String) (i : Nat)
    (hfix : args.fix = false) (h1 : 1 ≤ i) (h2 : i < fm.length - 1) :
    ((lintLineByLine args config fm fp).errors.indentation).filter (fun v => v.row == i)
      = (if 0 < searchNonWs (fm.getD i "undefined")
            ∧ 2 < searchNonWs (fm.getD i "undefined")
                - (if searchNonWs (fm.getD (i - 1) "undefined") = -1 then 0
                   else searchNonWs (fm.getD (i - 1) "undefined"))
         then [mkIndentViolation fm i (searchNonWs (fm.getD i "undefined")).toNat]
         else []) := by
  rw [lintLineByLine_indent_filter args config fm fp i h1 h2]
  simp only [indentLineContrib, indentContrib, hfix]
  by_cases hblank : jsTrim (fm.getD i "undefined") = ""
  · have hs := searchNonWs_all_ws (jsTrim_empty_all_ws hblank)
    rw [if_pos ⟨trivial, hblank⟩, hs]
    simp
  · rw [if_neg (fun hand => hblank hand.2), if_neg Bool.false_ne_true, ite_and]

/-- C5 witness: the amended theorem at row 4 of the counterexample block,
where the preceding blank line makes the recorded jump fire. -/
theorem c5_indentation_jump_rule_witness :
    argsNF.fix = false ∧ 1 ≤ 4
    ∧ 4 < (["", "---", "  x", "", "   y", "---"] : List String).length - 1
    ∧ ((lintLineByLine argsNF cfgU ["", "---", "  x", "", "   y", "---"]
          "f.md").errors.indentation).filter (fun v => v.row == 4)
      = (if 0 < searchNonWs ((["", "---", "  x", "", "   y", "---"] : List String).getD 4 "undefined")
            ∧ 2 < searchNonWs ((["", "---", "  x", "", "   y", "---"] : List String).getD 4 "undefined")
                - (if searchNonWs ((["", "---", "  x", "", "   y", "---"] : List String).getD 3 "undefined") = -1 then 0
                   else searchNonWs ((["", "---", "  x", "", "   y", "---"] : List String).getD 3 "undefined"))
         then [mkIndentViolation ["", "---", "  x", "", "   y", "---"] 4
                (searchNonWs ((["", "---", "  x", "", "   y", "---"] : List String).getD 4 "undefined")).toNat]
         else []) :=
  ⟨rfl, by decide, by decide,
    c5_indentation_jump_rule argsNF cfgU ["", "---", "  x", "", "   y", "---"] "f.md" 4
      rfl (by decide) (by decide)⟩

/-! ## Claim C7: the comma warning rule -/

/-- The start offset of the comma scan only shifts its output. -/
theorem scanComma_shift (cs : List Char) :
    ∀ p, scanComma cs p = (scanComma cs 0).map (fun q => q + p) := by
  induction cs with
  | nil => intro p; rfl
  | cons c rest ih =>
    intro p
    simp only [scanComma]
    by_cases h : (c = ',' && !(isLineTermChar (rest.headD '\n'))) = true
    · rw [if_pos h, if_pos h, ih (p + 1), ih 1]
      simp only [List.map_map, Function.comp_def, List.map_cons, List.cons.injEq]
      refine ⟨by omega, List.map_congr_left fun a _ => by omega⟩
    · rw [if_neg h, if_neg h, ih (p + 1), ih 1]
      simp only [List.map_map, Function.comp_def]
      exact List.map_congr_left fun a _ => by omega

/-- `headD` is `getD 0`. -/
theorem headD_eq_getD_zero (l : List Char) (d : Char) : l.headD d = l.getD 0 d := by
  cases l <;> rfl

/-- Characterization of the comma scan: it records exactly the indices `k`
holding a comma that is immediately followed by a character the JS regex `.`
can match. -/
theorem scanComma_range (cs : List Char) :
    scanComma cs 0 = (List.range cs.length).filter (fun k =>
      (cs.getD k '\n' = ',') && !(isLineTermChar (cs.getD (k + 1) '\n'))) := by
  induction cs with
  | nil => rfl
  | cons c rest ih =>
    have harg : ((fun k => decide ((c :: rest).getD k '\n' = ',')
          && !(isLineTermChar ((c :: rest).getD (k + 1) '\n'))) ∘ Nat.succ)
        = (fun k => decide (rest.getD k '\n' = ',')
          && !(isLineTermChar (rest.getD (k + 1) '\n'))) := by
      funext k
      rfl
    simp only [scanComma, List.length_cons, List.range_succ_eq_map, List.filter_cons,
      List.filter_map, harg, ← ih]
    have hcond : (decide ((c :: rest).getD 0 '\n' = ',')
        && !(isLineTermChar ((c :: rest).getD (0 + 1) '\n')))
        = (decide (c = ',') && !(isLineTermChar (rest.headD '\n'))) := by
      rw [headD_eq_getD_zero]
      rfl
    rw [hcond, scanComma_shift rest (0 + 1)]

/-- Reference definition for the amended C7: the columns at which the code
reports comma warnings for a line — one per comma immediately followed by
any character (whitespace included), at `col = commaIndex + 2`, i.e. the
1-based position of the character after the comma. -/
def commaSpecCols (line : String) : List Nat :=
  ((List.range line.length).filter (fun k =>
    (line.data.getD k '\n' = ',') && !(isLineTermChar (line.data.getD (k + 1) '\n')))).map
    (fun k => k + 2)

/-- C7 (counterexample): on the line `"a, b"` the comma is immediately
followed by a space — a whitespace character — yet the code records one
`possibly unintended commas` warning (the regex is `/,./`, matching any
following character), and it is recorded at col 3 (= comma index + 2, the
character after the comma), not at the comma position 2.  The claim says a
warning appears only when the follower is non-whitespace. -/
theorem c7_comma_whitespace_counterexample :
    ((lintLineByLine argsNF cfgU ["", "---", "a, b", "---"] "f.md").warnings.unintendedCommas).map
      (fun v => (v.row, v.col)) = [(2, 3)]
    ∧ jsWsChar ' ' = true :=
  ⟨by decide, by decide⟩

/-- C7 (amended): for every body line, the comma warnings recorded for that
row are exactly one per comma that is immediately followed by **any**
character (whitespace included; only a comma at end of line, or one followed
by a line terminator, is exempt), each at column `commaIndex + 2` — the
position of the character after the comma. -/
theorem c7_comma_warning_positions (args : Args) {α : Type} (config : Config α)
    (fm : List String) (fp : String) (i : Nat) (h1 : 1 ≤ i) (h2 : i < fm.length - 1) :
    (((lintLineByLine args config fm fp).warnings.unintendedCommas).filter
        (fun v => v.row == i)).map (fun v => v.col)
      = commaSpecCols (fm.getD i "undefined") := by
  rw [lintLineByLine_comma_filter args config fm fp i h1 h2]
  simp only [commaLineContrib, commaWarnContrib, commaSpecCols]
  by_cases hblank : args.fix = false ∧ jsTrim (fm.getD i "undefined") = ""
  · rw [if_pos hblank]
    have hws := jsTrim_empty_all_ws hblank.2
    have hnil : (List.range (fm.getD i "undefined").length).filter (fun k =>
        ((fm.getD i "undefined").data.getD k '\n' = ',')
          && !(isLineTermChar ((fm.getD i "undefined").data.getD (k + 1) '\n'))) = [] := by
      apply List.filter_eq_nil_iff.mpr
      intro k hk
      have hklen : k < (fm.getD i "undefined").data.length := List.mem_range.mp hk
      have hmem : (fm.getD i "undefined").data.getD k '\n'
          ∈ (fm.getD i "undefined").data := by
        rw [List.getD_eq_getElem _ _ hklen]
        exact List.getElem_mem hklen
      have := hws _ hmem
      simp only [Bool.and_eq_true, decide_eq_true_eq, Bool.not_eq_eq_eq_not, Bool.not_true]
      intro hcomma
      rw [hcomma.1] at this
      exact absurd this (by decide)
    rw [hnil]
    rfl
  · rw [if_neg hblank]
    rw [scanComma_range, List.map_map]
    rfl

/-- C7 witness: the amended theorem at the line `"a, b"` (row 2). -/
theorem c7_comma_warning_positions_witness :
    1 ≤ 2 ∧ 2 < (["", "---", "a, b", "---"] : List String).length - 1
    ∧ (((lintLineByLine argsNF cfgU ["", "---", "a, b", "---"] "f.md").warnings.unintendedCommas).filter
        (fun v => v.row == 2)).map (fun v => v.col)
      = commaSpecCols ((["", "---", "a, b", "---"] : List String).getD 2 "undefined") :=
  ⟨by decide, by decide,
    c7_comma_warning_positions argsNF cfgU ["", "---", "a, b", "---"] "f.md" 2
      (by decide) (by decide)⟩

/-! ## Split/join infrastructure (used by C1 and C9) -/

/-- Character-level join with newline separators. -/
def joinC : List (List Char) → List Char
  | [] => []
  | [x] => x
  | x :: rest => x ++ '\n' :: joinC rest

theorem str_ext {a b : String} (h : a.data = b.data) : a = b := by
  cases a; cases b; exact congrArg String.mk h

theorem joinNL_data (X : List String) : (joinNL X).data = joinC (X.map String.data) := by
  induction X with
  | nil => rfl
  | cons x rest ih =>
    cases rest with
    | nil => rfl
    | cons y t =>
      show (x ++ "\n" ++ joinNL (y :: t)).data = x.data ++ '\n' :: joinC ((y :: t).map String.data)
      rw [String.data_append, String.data_append, ← ih]
      rw [show ("\n" : String).data = ['\n'] from rfl, List.append_assoc]
      rfl

theorem splitNL_ne_nil (cs : List Char) : splitNL cs ≠ [] := by
  cases cs with
  | nil => simp [splitNL]
  | cons c rest =>
    simp only [splitNL]
    by_cases h : c = '\n'
    · simp [h]
    · rw [if_neg h]
      rcases hs : splitNL rest with _ | ⟨hd, tl⟩
      · simp
      · simp

theorem joinC_splitNL (cs : List Char) : joinC (splitNL cs) = cs := by
  induction cs with
  | nil => rfl
  | cons c rest ih =>
    simp only [splitNL]
    by_cases h : c = '\n'
    · rw [if_pos h, h]
      rcases hs : splitNL rest with _ | ⟨hd, tl⟩
      · exact absurd hs (splitNL_ne_nil rest)
      · show joinC ([] :: hd :: tl) = '\n' :: rest
        show [] ++ '\n' :: joinC (hd :: tl) = '\n' :: rest
        rw [hs] at ih
        rw [List.nil_append, ih]
    · rw [if_neg h]
      rcases hs : splitNL rest with _ | ⟨hd, tl⟩
      · exact absurd hs (splitNL_ne_nil rest)
      · rw [hs] at ih
        cases tl with
        | nil =>
          show c :: hd = c :: rest
          rw [show joinC [hd] = hd from rfl] at ih
          rw [ih]
        | cons z zs =>
          show (c :: hd) ++ '\n' :: joinC (z :: zs) = c :: rest
          show c :: (hd ++ '\n' :: joinC (z :: zs)) = c :: rest
          rw [show hd ++ '\n' :: joinC (z :: zs) = joinC (hd :: z :: zs) from rfl, ih]

theorem joinNL_splitLines (s : String) : joinNL (splitLines s) = s := by
  apply str_ext
  rw [joinNL_data]
  show joinC ((splitNL s.data).map String.mk |>.map String.data) = s.data
  rw [List.map_map]
  have : (String.data ∘ String.mk) = id := by funext l; rfl
  rw [this, List.map_id]
  exact joinC_splitNL s.data

theorem splitNL_no_newline (cs : List Char) : ∀ l ∈ splitNL cs, '\n' ∉ l := by
  induction cs with
  | nil => intro l hl; simp [splitNL] at hl; simp [hl]
  | cons c rest ih =>
    intro l hl
    simp only [splitNL] at hl
    by_cases h : c = '\n'
    · rw [if_pos h] at hl
      rcases List.mem_cons.mp hl with rfl | hl2
      · simp
      · exact ih l hl2
    · rw [if_neg h] at hl
      rcases hs : splitNL rest with _ | ⟨hd, tl⟩
      · exact absurd hs (splitNL_ne_nil rest)
      · rw [hs] at hl
        rcases List.mem_cons.mp hl with rfl | hl2
        · intro hmem
          rcases List.mem_cons.mp hmem with rfl | hmem2
          · exact h rfl
          · exact ih hd (hs ▸ List.mem_cons_self hd tl) hmem2
        · exact ih l (hs ▸ List.mem_cons_of_mem hd hl2)

theorem splitNL_mem_subset (cs : List Char) : ∀ l ∈ splitNL cs, ∀ c ∈ l, c ∈ cs := by
  induction cs with
  | nil => intro l hl c hc; simp [splitNL] at hl; simp [hl] at hc
  | cons x rest ih =>
    intro l hl c hc
    simp only [splitNL] at hl
    by_cases h : x = '\n'
    · rw [if_pos h] at hl
      rcases List.mem_cons.mp hl with rfl | hl2
      · simp at hc
      · exact List.mem_cons_of_mem x (ih l hl2 c hc)
    · rw [if_neg h] at hl
      rcases hs : splitNL rest with _ | ⟨hd, tl⟩
      · exact absurd hs (splitNL_ne_nil rest)
      · rw [hs] at hl
        rcases List.mem_cons.mp hl with rfl | hl2
        · rcases List.mem_cons.mp hc with rfl | hc2
          · exact List.mem_cons_self c rest
          · exact List.mem_cons_of_mem x
              (ih hd (hs ▸ List.mem_cons_self hd tl) c hc2)
        · exact List.mem_cons_of_mem x
            (ih l (hs ▸ List.mem_cons_of_mem hd hl2) c hc)

theorem splitNL_of_no_newline (cs : List Char) (h : '\n' ∉ cs) : splitNL cs = [cs] := by
  induction cs with
  | nil => rfl
  | cons c rest ih =>
    simp only [splitNL]
    have hc : c ≠ '\n' := fun hh => h (hh ▸ List.mem_cons_self c rest)
    rw [if_neg hc, ih (fun hh => h (List.mem_cons_of_mem c hh))]

theorem splitNL_cons_ne (a : Char) (l : List Char) (ha : a ≠ '\n') :
    splitNL (a :: l) = match splitNL l with
      | [] => [[a]]
      | h :: t => (a :: h) :: t := by
  simp only [splitNL, if_neg ha]

theorem splitNL_append_newline (as bs : List Char) (h : '\n' ∉ as) :
    splitNL (as ++ '\n' :: bs) = as :: splitNL bs := by
  induction as with
  | nil => simp [splitNL]
  | cons a t ih =>
    have ha : a ≠ '\n' := fun hh => h (hh ▸ List.mem_cons_self a t)
    show splitNL (a :: (t ++ '\n' :: bs)) = (a :: t) :: splitNL bs
    rw [splitNL_cons_ne a _ ha, ih (fun hh => h (List.mem_cons_of_mem a hh))]

theorem splitNL_joinC_append (X : List (List Char)) (bs : List Char) (hne : X ≠ [])
    (hX : ∀ l ∈ X, '\n' ∉ l) :
    splitNL (joinC X ++ '\n' :: bs) = X ++ splitNL bs := by
  induction X with
  | nil => exact absurd rfl hne
  | cons x rest ih =>
    cases rest with
    | nil =>
      show splitNL (x ++ '\n' :: bs) = [x] ++ splitNL bs
      rw [splitNL_append_newline x bs (hX x (List.mem_cons_self x []))]
      rfl
    | cons y t =>
      show splitNL ((x ++ '\n' :: joinC (y :: t)) ++ '\n' :: bs) = x :: (y :: t) ++ splitNL bs
      rw [List.append_assoc, List.cons_append]
      rw [splitNL_append_newline x _ (hX x (List.mem_cons_self x (y :: t)))]
      rw [ih (by simp) (fun l hl => hX l (List.mem_cons_of_mem x hl))]
      rfl

theorem splitLines_append (X : List String) (C : String) (hne : X ≠ [])
    (hX : ∀ s ∈ X, '\n' ∉ s.data) :
    splitLines (joinNL X ++ "\n" ++ C) = X ++ splitLines C := by
  unfold splitLines
  have hdata : (joinNL X ++ "\n" ++ C).data = joinC (X.map String.data) ++ '\n' :: C.data := by
    rw [String.data_append, String.data_append, joinNL_data]
    rw [show ("\n" : String).data = ['\n'] from rfl, List.append_assoc]
    rfl
  rw [hdata]
  rw [splitNL_joinC_append (X.map String.data) C.data (by simpa using hne)
    (by intro l hl; rcases List.mem_map.mp hl with ⟨s, hs, rfl⟩; exact hX s hs)]
  rw [List.map_append, List.map_map]
  have : (String.mk ∘ String.data) = id := by funext s; rfl
  rw [this, List.map_id]

theorem joinNL_append (X Y : List String) (hX : X ≠ []) (hY : Y ≠ []) :
    joinNL (X ++ Y) = joinNL X ++ "\n" ++ joinNL Y := by
  induction X with
  | nil => exact absurd rfl hX
  | cons x rest ih =>
    cases rest with
    | nil =>
      cases Y with
      | nil => exact absurd rfl hY
      | cons y t => rfl
    | cons z zs =>
      show joinNL (x :: (z :: zs ++ Y)) = joinNL (x :: z :: zs) ++ "\n" ++ joinNL Y
      have h1 : joinNL (x :: (z :: zs ++ Y)) = x ++ "\n" ++ joinNL (z :: zs ++ Y) := rfl
      have h2 : joinNL (x :: z :: zs) = x ++ "\n" ++ joinNL (z :: zs) := rfl
      rw [h1, h2, ih (by simp)]
      simp [String.append_assoc]

theorem stripCR_eq_self {s : String} (h : ∀ c ∈ s.data, c ≠ '\r') : stripCR s = s := by
  apply str_ext
  show s.data.filter (fun c => c ≠ '\r') = s.data
  exact List.filter_eq_self.mpr (fun c hc => by simpa using h c hc)

theorem stripTrailingComma_subset (line : String) :
    ∀ c ∈ (stripTrailingComma line).data, c ∈ line.data := by
  intro c hc
  unfold stripTrailingComma at hc
  rcases hrev : line.data.reverse with _ | ⟨hd, tl⟩
  · rw [hrev] at hc; exact hc
  · rw [hrev] at hc
    by_cases hhd : hd = ','
    · subst hhd
      simp only at hc
      have hsub : c ∈ tl := by
        have h1 : c ∈ (tl.dropWhile jsWsChar).reverse := by simpa using hc
        have h2 := List.mem_reverse.mp h1
        exact (tl.dropWhile_sublist jsWsChar).mem h2
      have : c ∈ line.data.reverse := hrev ▸ List.mem_cons_of_mem ',' hsub
      exact List.mem_reverse.mp this
    · have : (match line.data.reverse with
        | ',' :: rest => String.mk ((rest.dropWhile jsWsChar).reverse)
        | _ => line) = line := by
        rw [hrev]
        cases hd
        simp_all [stripTrailingComma]
      rw [hrev] at this
      rw [this] at hc
      exact hc

theorem splitLines_ne_nil (s : String) : splitLines s ≠ [] := by
  unfold splitLines
  intro h
  exact splitNL_ne_nil s.data (List.map_eq_nil_iff.mp h)

/-- The fixed front-matter block laid out explicitly: sentinel, opening
delimiter, the serializer's lines (comma-stripped, last dropped), closing
delimiter. -/
theorem mkFixedFm_shape (dumpStr : String) :
    mkFixedFm dumpStr
      = "" :: "---" :: (((splitLines dumpStr).map stripTrailingComma).dropLast ++ ["---"]) := by
  have hne : (splitLines dumpStr).map stripTrailingComma ≠ [] := by
    intro h
    exact splitLines_ne_nil dumpStr (List.map_eq_nil_iff.mp h)
  show ("" :: "---" :: (splitLines dumpStr).map stripTrailingComma).dropLast ++ ["---"]
    = "" :: "---" :: (((splitLines dumpStr).map stripTrailingComma).dropLast ++ ["---"])
  rw [List.dropLast_cons_of_ne_nil (by simp), List.dropLast_cons_of_ne_nil hne]
  rfl

theorem jsIndexOf_go_not_mem (target : String) (start : Nat) (mid : List String) :
    ∀ (l : List String) (i : Nat), target ∉ mid →
      jsIndexOfFrom.go target start (mid ++ l) i
        = jsIndexOfFrom.go target start l (i + mid.length) := by
  induction mid with
  | nil => intro l i _; simp
  | cons x rest ih =>
    intro l i h
    have hx : x ≠ target := fun hh => h (hh ▸ List.mem_cons_self x rest)
    show jsIndexOfFrom.go target start (x :: (rest ++ l)) i = _
    rw [show jsIndexOfFrom.go target start (x :: (rest ++ l)) i
        = jsIndexOfFrom.go target start (rest ++ l) (i + 1) from by
      simp [jsIndexOfFrom.go, hx]]
    rw [ih l (i + 1) (fun hh => h (List.mem_cons_of_mem x hh))]
    congr 1
    simp
    omega

theorem jsIndexOf_go_found (target : String) (start : Nat) (rest : List String) (i : Nat)
    (h : start ≤ i) : jsIndexOfFrom.go target start (target :: rest) i = (i : Int) := by
  simp [jsIndexOfFrom.go, h]

/-- Closing-delimiter search over a freshly written block: the sentinel and
the opening delimiter are skipped (index below start 2), the serializer
lines contain no delimiter, so the first hit is the closing delimiter. -/
theorem jsIndexOfFrom_sandwich (mid rest : List String) (h : "---" ∉ mid) :
    jsIndexOfFrom ("" :: "---" :: (mid ++ "---" :: rest)) "---" 2
      = ((2 + mid.length : Nat) : Int) := by
  show jsIndexOfFrom.go "---" 2 ("" :: "---" :: (mid ++ "---" :: rest)) 0 = _
  rw [show jsIndexOfFrom.go "---" 2 ("" :: "---" :: (mid ++ "---" :: rest)) 0
      = jsIndexOfFrom.go "---" 2 ("---" :: (mid ++ "---" :: rest)) 1 from by
    simp [jsIndexOfFrom.go]]
  rw [show jsIndexOfFrom.go "---" 2 ("---" :: (mid ++ "---" :: rest)) 1
      = jsIndexOfFrom.go "---" 2 (mid ++ "---" :: rest) 2 from by
    simp [jsIndexOfFrom.go]]
  rw [jsIndexOf_go_not_mem "---" 2 mid ("---" :: rest) 2 h]
  rw [jsIndexOf_go_found "---" 2 rest (2 + mid.length) (by omega)]

/-! ## Claim C1: fix mode and the document body -/

/-- C1 (counterexample): the document `"---\na: 1\n---\nb\r"` has body bytes
`"b\r"` after the closing delimiter line, ending in a carriage return.  Fix
mode strips every `\r` from the whole document before splitting
(`data.replace(/\r/g, "")`), so the rewritten file ends in `'b'`: the final
body byte `'\r'` is not written back, refuting byte-for-byte preservation. -/
theorem c1_fix_preserves_body_counterexample :
    (lintFile loadOkU dumpUnit argsFX cfgU "f.md" "---\na: 1\n---\nb\r"
      zeroRunState).written = some "---\na: 1\n---\nb"
    ∧ ("---\na: 1\n---\nb".data.getLast? = some 'b')
    ∧ ("b\r".data.getLast? = some '\r') :=
  ⟨by decide, by decide, by decide⟩

/-- C1 (amended): in fix mode (with the front matter found at closing index
`k` and the block parsed successfully), the written file is the new
serialized front matter followed by `"\n"` and the joined lines after the
closing delimiter of the **CR-stripped** document; the CR-stripped document
itself splits as its own front-matter lines followed by the same `"\n"` and
the same trailing content.  Thus everything after the closing `---` line is
preserved verbatim modulo the up-front carriage-return removal — for
CR-free documents this is byte-for-byte. -/
theorem c1_fix_preserves_stripped_body {α : Type} (load : String → Except YamlError α)
    (dump : α → String) (args : Args) (config : Config α) (filePath text : String)
    (st : RunState) (a : α) (k : Nat)
    (hfix : args.fix = true)
    (hfm : fmNotFound (linesOf text) = false)
    (hidx : jsIndexOfFrom (linesOf text) "---" 2 = (k : Int))
    (hk2 : 2 ≤ k) (hklen : k < (linesOf text).length)
    (hload : load (joinNL (((linesOf text).take (k + 1)).filter (fun l => l != "---")))
      = Except.ok a)
    (hT : (linesOf text).drop (k + 1) ≠ []) :
    (lintFile load dump args config filePath text st).written
      = some (joinNL ((mkFixedFm (dump a)).drop 1) ++ "\n"
          ++ joinNL ((linesOf text).drop (k + 1)))
    ∧ stripCR text
      = joinNL (((linesOf text).take (k + 1)).drop 1) ++ "\n"
          ++ joinNL ((linesOf text).drop (k + 1))
    ∧ ((mkFixedFm (dump a)).drop 1).getLast? = some "---" := by
  refine ⟨?_, ?_, ?_⟩
  · simp [lintFile, hfm, hidx, hfix, hload]
  · have hL2 : (linesOf text).drop 1 = splitLines (stripCR text) := rfl
    have hmin : ((linesOf text).take (k + 1)).length = k + 1 := by
      rw [List.length_take]
      omega
    have hsplit : (linesOf text).drop 1
        = ((linesOf text).take (k + 1)).drop 1 ++ (linesOf text).drop (k + 1) := by
      conv_lhs => rw [← List.take_append_drop (k + 1) (linesOf text)]
      rw [List.drop_append_of_le_length (by omega)]
    have hA : ((linesOf text).take (k + 1)).drop 1 ≠ [] := by
      intro hnil
      have := congrArg List.length hnil
      rw [List.length_drop, hmin] at this
      simp at this
      omega
    calc stripCR text = joinNL (splitLines (stripCR text)) := (joinNL_splitLines _).symm
      _ = joinNL ((linesOf text).drop 1) := by rw [hL2]
      _ = joinNL (((linesOf text).take (k + 1)).drop 1 ++ (linesOf text).drop (k + 1)) := by
          rw [← hsplit]
      _ = _ := joinNL_append _ _ hA hT
  · rw [mkFixedFm_shape]
    show ("---" :: (((splitLines (dump a)).map stripTrailingComma).dropLast ++ ["---"])).getLast?
      = some "---"
    rw [show ("---" :: (((splitLines (dump a)).map stripTrailingComma).dropLast ++ ["---"]))
        = ("---" :: ((splitLines (dump a)).map stripTrailingComma).dropLast) ++ ["---"] from rfl]
    exact List.getLast?_concat _

/-- C1 witness: the amended theorem at the CR-free document
`"---\na: 1\n---\nbody"` with closing index 3. -/
theorem c1_fix_preserves_stripped_body_witness :
    argsFX.fix = true
    ∧ fmNotFound (linesOf "---\na: 1\n---\nbody") = false
    ∧ jsIndexOfFrom (linesOf "---\na: 1\n---\nbody") "---" 2 = ((3 : Nat) : Int)
    ∧ 2 ≤ 3 ∧ 3 < (linesOf "---\na: 1\n---\nbody").length
    ∧ loadOkU (joinNL (((linesOf "---\na: 1\n---\nbody").take (3 + 1)).filter
        (fun l => l != "---"))) = Except.ok ()
    ∧ (linesOf "---\na: 1\n---\nbody").drop (3 + 1) ≠ []
    ∧ ((lintFile loadOkU dumpUnit argsFX cfgU "f.md" "---\na: 1\n---\nbody"
        zeroRunState).written
      = some (joinNL ((mkFixedFm (dumpUnit ())).drop 1) ++ "\n"
          ++ joinNL ((linesOf "---\na: 1\n---\nbody").drop (3 + 1)))
    ∧ stripCR "---\na: 1\n---\nbody"
      = joinNL (((linesOf "---\na: 1\n---\nbody").take (3 + 1)).drop 1) ++ "\n"
          ++ joinNL ((linesOf "---\na: 1\n---\nbody").drop (3 + 1))
    ∧ ((mkFixedFm (dumpUnit ())).drop 1).getLast? = some "---") :=
  ⟨rfl, by decide, by decide, by decide, by decide, rfl, by decide,
    c1_fix_preserves_stripped_body loadOkU dumpUnit argsFX cfgU "f.md"
      "---\na: 1\n---\nbody" zeroRunState () 3 rfl (by decide) (by decide) (by decide)
      (by decide) rfl (by decide)⟩

theorem joinC_mem (L : List (List Char)) : ∀ c ∈ joinC L, c = '\n' ∨ ∃ l ∈ L, c ∈ l := by
  induction L with
  | nil => intro c hc; simp [joinC] at hc
  | cons x rest ih =>
    cases rest with
    | nil =>
      intro c hc
      exact Or.inr ⟨x, List.mem_cons_self x [], hc⟩
    | cons y t =>
      intro c hc
      rcases List.mem_append.mp hc with h1 | h1
      · exact Or.inr ⟨x, List.mem_cons_self x (y :: t), h1⟩
      · rcases List.mem_cons.mp h1 with rfl | h2
        · exact Or.inl rfl
        · rcases ih c h2 with h3 | ⟨l, hl, hcl⟩
          · exact Or.inl h3
          · exact Or.inr ⟨l, List.mem_cons_of_mem x hl, hcl⟩

theorem joinNL_mem_chars {X : List String} {c : Char} (hc : c ∈ (joinNL X).data) :
    c = '\n' ∨ ∃ s ∈ X, c ∈ s.data := by
  rw [joinNL_data] at hc
  rcases joinC_mem (X.map String.data) c hc with h | ⟨l, hl, hcl⟩
  · exact Or.inl h
  · rcases List.mem_map.mp hl with ⟨s, hs, rfl⟩
    exact Or.inr ⟨s, hs, hcl⟩

theorem splitLines_chars {t : String} {s : String} (hs : s ∈ splitLines t) :
    ∀ c ∈ s.data, c ∈ t.data := by
  intro c hc
  rcases List.mem_map.mp hs with ⟨l, hl, rfl⟩
  exact splitNL_mem_subset t.data l hl c hc

theorem splitLines_no_newline {t : String} {s : String} (hs : s ∈ splitLines t) :
    '\n' ∉ s.data := by
  rcases List.mem_map.mp hs with ⟨l, hl, rfl⟩
  exact splitNL_no_newline t.data l hl

theorem stripCR_no_cr (s : String) : ∀ c ∈ (stripCR s).data, c ≠ '\r' := by
  intro c hc
  have := List.of_mem_filter hc
  simpa using this

/-! ## Claim C9: fix-mode idempotence -/

/-- C9: running fix mode a second time on the file it has just written
produces the identical file content byte-for-byte — in particular identical
front matter.  The hypotheses isolate exactly the serializer stability the
spec itself assumes ("serialization of an already-canonical mapping is
stable"): the serializer output contains no carriage return and no bare
`---` line, re-parsing the fixed block succeeds, and serializing the
re-parsed attributes reproduces the same string. -/
theorem c9_fix_idempotent {α : Type} (load : String → Except YamlError α) (dump : α → String)
    (args : Args) (config : Config α) (fp1 fp2 text : String) (st1 st2 : RunState)
    (a1 a2 : α) (k : Nat)
    (hfix : args.fix = true)
    (hfm : fmNotFound (linesOf text) = false)
    (hidx : jsIndexOfFrom (linesOf text) "---" 2 = (k : Int))
    (hload1 : load (joinNL (((linesOf text).take (k + 1)).filter (fun l => l != "---")))
        = Except.ok a1)
    (hnocr : ∀ c ∈ (dump a1).data, c ≠ '\r')
    (hnodelim : "---" ∉ ((splitLines (dump a1)).map stripTrailingComma).dropLast)
    (hload2 : load (joinNL ("" :: ((splitLines (dump a1)).map stripTrailingComma).dropLast))
        = Except.ok a2)
    (hstable : dump a2 = dump a1) :
    ∀ w1, (lintFile load dump args config fp1 text st1).written = some w1 →
      (lintFile load dump args config fp2 w1 st2).written = some w1 := by
  intro w1 hw1
  set mid := ((splitLines (dump a1)).map stripTrailingComma).dropLast with hmiddef
  set C := joinNL ((linesOf text).drop (k + 1)) with hCdef
  have hrun1 : (lintFile load dump args config fp1 text st1).written
      = some (joinNL ((mkFixedFm (dump a1)).drop 1) ++ "\n" ++ C) := by
    simp [lintFile, hfm, hidx, hfix, hload1, hCdef]
  rw [hrun1] at hw1
  have hw1eq : w1 = joinNL ((mkFixedFm (dump a1)).drop 1) ++ "\n" ++ C :=
    (Option.some_inj.mp hw1).symm
  subst hw1eq
  have hshape : mkFixedFm (dump a1) = "" :: "---" :: (mid ++ ["---"]) := by
    rw [mkFixedFm_shape, hmiddef]
  have htail : (mkFixedFm (dump a1)).drop 1 = "---" :: (mid ++ ["---"]) := by
    rw [hshape]
    rfl
  rw [htail]
  set W := joinNL ("---" :: (mid ++ ["---"])) ++ "\n" ++ C with hWdef
  -- Character-level facts.
  have hmid_sub : ∀ s ∈ mid, ∀ c ∈ s.data, c ∈ (dump a1).data := by
    intro s hs c hc
    have hs2 : s ∈ (splitLines (dump a1)).map stripTrailingComma :=
      (List.dropLast_sublist _).subset (hmiddef ▸ hs)
    rcases List.mem_map.mp hs2 with ⟨y, hy, rfl⟩
    exact splitLines_chars hy c (stripTrailingComma_subset y c hc)
  have hmid_nl : ∀ s ∈ mid, '\n' ∉ s.data := by
    intro s hs hc
    have hs2 : s ∈ (splitLines (dump a1)).map stripTrailingComma :=
      (List.dropLast_sublist _).subset (hmiddef ▸ hs)
    rcases List.mem_map.mp hs2 with ⟨y, hy, rfl⟩
    exact splitLines_no_newline hy (stripTrailingComma_subset y '\n' hc)
  have hM_nl : ∀ s ∈ ("---" :: (mid ++ ["---"])), '\n' ∉ s.data := by
    intro s hs
    rcases List.mem_cons.mp hs with rfl | hs2
    · decide
    · rcases List.mem_append.mp hs2 with h3 | h3
      · exact hmid_nl s h3
      · rcases List.mem_cons.mp h3 with rfl | h4
        · decide
        · simp at h4
  have hM_cr : ∀ s ∈ ("---" :: (mid ++ ["---"])), ∀ c ∈ s.data, c ≠ '\r' := by
    intro s hs c hc
    rcases List.mem_cons.mp hs with rfl | hs2
    · intro hcr
      subst hcr
      simp at hc
    · rcases List.mem_append.mp hs2 with h3 | h3
      · exact hnocr c (hmid_sub s h3 c hc)
      · rcases List.mem_cons.mp h3 with rfl | h4
        · intro hcr
          subst hcr
          simp at hc
        · simp at h4
  have hT_cr : ∀ s ∈ (linesOf text).drop (k + 1), ∀ c ∈ s.data, c ≠ '\r' := by
    intro s hs c hc
    have hs2 : s ∈ linesOf text := List.drop_subset _ _ hs
    rcases List.mem_cons.mp hs2 with rfl | hs3
    · simp at hc
    · exact stripCR_no_cr text c (splitLines_chars hs3 c hc)
  have hC_cr : ∀ c ∈ C.data, c ≠ '\r' := by
    intro c hc
    rcases joinNL_mem_chars (hCdef ▸ hc) with h | ⟨s, hs, hcs⟩
    · subst h; decide
    · exact hT_cr s hs c hcs
  have hW_cr : ∀ c ∈ W.data, c ≠ '\r' := by
    intro c hc
    rw [hWdef, String.data_append, String.data_append] at hc
    rcases List.mem_append.mp hc with h1 | h1
    · rcases List.mem_append.mp h1 with h2 | h2
      · rcases joinNL_mem_chars h2 with h | ⟨s, hs, hcs⟩
        · subst h; decide
        · exact hM_cr s hs c hcs
      · simp at h2
        subst h2
        decide
    · exact hC_cr c h1
  have hstrip2 : stripCR W = W := stripCR_eq_self hW_cr
  have hsplitW : splitLines W = ("---" :: (mid ++ ["---"])) ++ splitLines C :=
    splitLines_append ("---" :: (mid ++ ["---"])) C (by simp) hM_nl
  have hlines2 : linesOf W = "" :: "---" :: (mid ++ "---" :: splitLines C) := by
    show "" :: splitLines (stripCR W) = _
    rw [hstrip2, hsplitW]
    simp
  have hidx2 : jsIndexOfFrom (linesOf W) "---" 2 = ((2 + mid.length : Nat) : Int) := by
    rw [hlines2]
    exact jsIndexOfFrom_sandwich mid (splitLines C) (hmiddef ▸ hnodelim)
  have hfm2 : fmNotFound (linesOf W) = false := by
    unfold fmNotFound
    rw [hidx2, hlines2]
    have h1 : strStarts (("" :: "---" :: (mid ++ "---" :: splitLines C)).getD 1 "undefined")
        "---" = true := rfl
    rw [h1]
    have h2 : (((2 + mid.length : Nat) : Int) == -1) = false := by
      rw [beq_eq_false_iff_ne]
      omega
    rw [h2]
    rfl
  have hsand : "" :: "---" :: (mid ++ "---" :: splitLines C)
      = ("" :: "---" :: mid) ++ ("---" :: splitLines C) := rfl
  have hlen2 : ("" :: "---" :: mid).length = 2 + mid.length := by
    simp only [List.length_cons]
    omega
  have htake2 : (linesOf W).take (2 + mid.length + 1) = "" :: "---" :: (mid ++ ["---"]) := by
    rw [hlines2, hsand, show 2 + mid.length + 1 = ("" :: "---" :: mid).length + 1 from by
      rw [hlen2]]
    rw [List.take_append 1]
    simp
  have hdrop2 : (linesOf W).drop (2 + mid.length + 1) = splitLines C := by
    rw [hlines2, hsand, show 2 + mid.length + 1 = ("" :: "---" :: mid).length + 1 from by
      rw [hlen2]]
    rw [List.drop_append 1]
    rfl
  have hfilter2 : (("" :: "---" :: (mid ++ ["---"])).filter (fun l => l != "---"))
      = "" :: mid := by
    have hm : mid.filter (fun l => l != "---") = mid :=
      List.filter_eq_self.mpr (fun x hx => by
        simp only [bne_iff_ne, ne_eq, decide_eq_true_eq]
        exact fun h => (hmiddef ▸ hnodelim) (h ▸ hx))
    simp [List.filter_cons, List.filter_append, hm]
  simp only [lintFile, hfm2, hidx2, hfix, Bool.false_eq_true, if_false, Int.toNat_ofNat,
    htake2, hfilter2]
  rw [hload2]
  simp [hstable, htail, hdrop2, joinNL_splitLines, hCdef]

/-- C9 witness: fixing `"---\na: 1,\n---\nbody"` writes
`"---\na: 1\n---\nbody"`, and fixing that output writes it back
unchanged. -/
theorem c9_fix_idempotent_witness :
    argsFX.fix = true
    ∧ fmNotFound (linesOf "---\na: 1,\n---\nbody") = false
    ∧ jsIndexOfFrom (linesOf "---\na: 1,\n---\nbody") "---" 2 = ((3 : Nat) : Int)
    ∧ loadOkU (joinNL (((linesOf "---\na: 1,\n---\nbody").take (3 + 1)).filter
        (fun l => l != "---"))) = Except.ok ()
    ∧ (∀ c ∈ (dumpUnit ()).data, c ≠ '\r')
    ∧ "---" ∉ ((splitLines (dumpUnit ())).map stripTrailingComma).dropLast
    ∧ loadOkU (joinNL ("" :: ((splitLines (dumpUnit ())).map stripTrailingComma).dropLast))
        = Except.ok ()
    ∧ dumpUnit () = dumpUnit ()
    ∧ ((lintFile loadOkU dumpUnit argsFX cfgU "a.md" "---\na: 1,\n---\nbody"
          zeroRunState).written = some "---\na: 1\n---\nbody"
      ∧ (lintFile loadOkU dumpUnit argsFX cfgU "b.md" "---\na: 1\n---\nbody"
          zeroRunState).written = some "---\na: 1\n---\nbody") :=
  ⟨rfl, by decide, by decide, rfl, by decide, by decide, rfl, rfl,
    by decide,
    c9_fix_idempotent loadOkU dumpUnit argsFX cfgU "a.md" "b.md" "---\na: 1,\n---\nbody"
      zeroRunState zeroRunState () () 3 rfl (by decide) (by decide) rfl (by decide)
      (by decide) rfl rfl "---\na: 1\n---\nbody" (by decide)⟩

end YamlFmLint
